import Mathlib

/-!
Verification of the CloudShaver cost-analysis blades.

This file embeds the two analysis units of the repository — the EC2
optimization blade and the RDS optimization blade — together with the
JSON-table-backed pricing service they consume, and proves or refutes the
frozen specification claims about them.

Modelling conventions:
* Go float64 arithmetic on prices, savings and metric averages is modelled
  exactly over the rationals; the IEEE special values that the RDS
  reserved-coverage computation can produce on a division by zero are
  modelled by the dedicated GoFloat type below.
* Go maps are modelled as association lists (first match wins on lookup,
  insertion overwrites in place); the unspecified iteration order of a Go
  map range statement is modelled by an explicit reordering parameter.
* Collaborator calls (AWS SDK clients, CloudWatch metric aggregation) are
  modelled as environment fields returning Except values, mirroring the
  (value, error) pairs of the Go interfaces.
* Recommendation strings are modelled structurally: one constructor per
  fmt.Sprintf template in the source, carrying the formatted arguments.
* Log statements, tag-derived display names and result timestamps have no
  observable effect on the analysis output and are omitted.
-/

set_option maxHeartbeats 1000000

namespace CloudShaver

/-- Result of one Go map lookup, first matching key wins
(keys of a Go map are unique, so an association list is faithful). -/
def mapFind {α : Type} (m : List (String × α)) (k : String) : Option α :=
  match m with
  | [] => none
  | (k', v) :: rest => if k' = k then some v else mapFind rest k

/-- Go map assignment: overwrite the binding of the key if present,
otherwise add a new binding. -/
def mapInsert {α : Type} (m : List (String × α)) (k : String) (v : α) :
    List (String × α) :=
  match m with
  | [] => [(k, v)]
  | (k', v') :: rest =>
    if k' = k then (k, v) :: rest else (k', v') :: mapInsert rest k v

/-- Go float64 values reached by the embedded code: exact finite values plus
the IEEE special values produced by the reserved-coverage division. -/
inductive GoFloat : Type where
  | finite (q : ℚ)
  | posInf
  | negInf
  | nan
deriving DecidableEq, Repr

/-- IEEE-754 division for the cases the embedded code exercises
(finite dividend and divisor); finite nonzero division is exact. -/
def goDiv : GoFloat → GoFloat → GoFloat
  | .finite a, .finite b =>
    if b ≠ 0 then .finite (a / b)
    else if 0 < a then .posInf
    else if a < 0 then .negInf
    else .nan
  | _, _ => .nan

/-- IEEE-754 multiplication on the modelled values (finite products exact). -/
def goMul : GoFloat → GoFloat → GoFloat
  | .nan, _ => .nan
  | _, .nan => .nan
  | .finite a, .finite b => .finite (a * b)
  | .posInf, .finite b =>
    if 0 < b then .posInf else if b < 0 then .negInf else .nan
  | .finite a, .posInf =>
    if 0 < a then .posInf else if a < 0 then .negInf else .nan
  | .negInf, .finite b =>
    if 0 < b then .negInf else if b < 0 then .posInf else .nan
  | .finite a, .negInf =>
    if 0 < a then .negInf else if a < 0 then .posInf else .nan
  | .posInf, .posInf => .posInf
  | .negInf, .negInf => .posInf
  | .posInf, .negInf => .negInf
  | .negInf, .posInf => .negInf

/-- IEEE-754 strict less-than: comparisons involving NaN are false. -/
def goLt : GoFloat → GoFloat → Bool
  | .nan, _ => false
  | _, .nan => false
  | .finite a, .finite b => decide (a < b)
  | .finite _, .posInf => true
  | .finite _, .negInf => false
  | .posInf, _ => false
  | .negInf, .negInf => false
  | .negInf, _ => true

/-- One entry of the on-demand-instances pricing table
(ec2_pricing.go, struct Instance); vcpu and memory are never read by the
analysis and are omitted. An absent recommended upgrade or downgrade is the
empty string in Go and is modelled as none. -/
structure PricingInstance : Type where
  pricePerHour : ℚ
  recommendedUpgrade : Option String
  recommendedDowngrade : Option String
deriving DecidableEq, Repr

/-- One entry of the EBS volume pricing table (ec2_pricing.go, struct
Volume); only PricePerGBMonth is read by the analysis. -/
structure VolumePricing : Type where
  pricePerGBMonth : ℚ
deriving DecidableEq, Repr

/-- The loaded pricing data (ec2_pricing.go, struct EC2Pricing):
region mapping, per-region on-demand instance pricing, per-region EBS
volume pricing. -/
structure EC2Pricing : Type where
  regionMapping : List (String × String)
  onDemandInstances : List (String × List (String × PricingInstance))
  ebsVolumes : List (String × List (String × VolumePricing))
deriving DecidableEq, Repr

/-- PricingService.IsRegionSupported (service.go): the region is a key of
the region mapping. -/
def isRegionSupported (p : EC2Pricing) (region : String) : Bool :=
  (mapFind p.regionMapping region).isSome

/-- PricingService.GetVolumePrice (service.go): price per GB-month for the
volume type in the region, or an error. -/
def getVolumePrice (p : EC2Pricing) (volumeType region : String) :
    Except String ℚ :=
  if ¬ isRegionSupported p region then
    .error ("region " ++ region ++ " is not supported")
  else
    match mapFind p.ebsVolumes region with
    | none => .error ("no pricing data available for region " ++ region)
    | some regionPricing =>
      match mapFind regionPricing volumeType with
      | none => .error ("no pricing data available for volume type " ++ volumeType)
      | some volume => .ok volume.pricePerGBMonth

/-- EC2Pricing.CalculateInstanceSavings (ec2_pricing.go): looks up the
current instance type in the region's table and computes savings from the
table's own recommended upgrade (and recommended downgrade, whichever is
larger), at the given number of running hours. -/
def calculateInstanceSavingsTable (p : EC2Pricing) (region instanceType : String)
    (hoursRunning : ℚ) : Except String ℚ :=
  match mapFind p.onDemandInstances region with
  | none => .error ("pricing not available for region: " ++ region)
  | some regionPricing =>
    match mapFind regionPricing instanceType with
    | none => .error ("pricing not available for instance type: " ++ instanceType)
    | some inst =>
      let s1 : ℚ :=
        match inst.recommendedUpgrade with
        | some up =>
          match mapFind regionPricing up with
          | some upInst => (inst.pricePerHour - upInst.pricePerHour) * hoursRunning
          | none => 0
        | none => 0
      let s2 : ℚ :=
        match inst.recommendedDowngrade with
        | some dn =>
          match mapFind regionPricing dn with
          | some dnInst =>
            let d := (inst.pricePerHour - dnInst.pricePerHour) * hoursRunning
            if s1 < d then d else s1
          | none => s1
        | none => s1
      .ok s2

/-- PricingService.CalculateInstanceSavings (service.go): delegates to the
pricing table at 720 hours of runtime.  The targetType parameter of the Go
method is not used by its body; the computation depends only on the current
type and the table's own recommendation entries. -/
def serviceCalculateInstanceSavings (p : EC2Pricing)
    (currentType targetType region : String) : Except String ℚ :=
  calculateInstanceSavingsTable p region currentType 720

/-- Static instance type upgrade paths of the EC2 blade (ec2_blade source,
var instanceUpgrades). -/
def instanceUpgrades : List (String × String) :=
  [("t2.micro", "t3.micro"), ("t2.small", "t3.small"),
   ("t2.medium", "t3.medium"), ("m4.large", "m5.large"),
   ("m4.xlarge", "m5.xlarge"), ("c4.large", "c5.large"),
   ("c4.xlarge", "c5.xlarge")]

/-- Static instance type upgrade paths of the RDS blade (rds_blade source,
var rdsInstanceUpgrades). -/
def rdsInstanceUpgrades : List (String × String) :=
  [("db.t3.micro", "db.t4g.micro"), ("db.t3.small", "db.t4g.small"),
   ("db.t3.medium", "db.t4g.medium"), ("db.r5.large", "db.r6g.large"),
   ("db.r5.xlarge", "db.r6g.xlarge"), ("db.m5.large", "db.m6g.large"),
   ("db.m5.xlarge", "db.m6g.xlarge")]

/-- Structured recommendation lines: one constructor per fmt.Sprintf
template (or fixed string) appended to a result's Recommendations in the
two blades, carrying the formatted arguments. -/
inductive Rec : Type where
  | underutilHeader (count : Nat)
  | underutilItem (instanceId currentType targetType : String) (savings : ℚ)
  | stoppedHeader (count : Nat)
  | stoppedVolumeItem (instanceId volumeType : String) (size : ℤ) (monthlyCost : ℚ)
  | stoppedTotal (total : ℚ)
  | adviceConsider
  | adviceTerminate
  | adviceSnapshotFirst
  | adviceAutomate
  | adviceRecreate
  | unattachedNoPricing (volumeId region : String)
  | unattachedItem (volumeType volumeId : String) (size : ℤ) (monthlyCost : ℚ)
  | rdsInstanceHeader (instanceId : String)
  | rdsUpgrade (currentClass targetClass : String) (savings : ℚ)
  | rdsDownsize (cpu connPct : ℚ)
  | rdsReduceStorage (alloc : ℤ) (utilization : ℚ)
  | rdsMemoryUpgrade (swapMB : ℚ)
  | rdsProvisionedIOPS (queueDepth : ℚ)
  | rdsStorageOptimize (readMs writeMs : ℚ)
  | rdsNetworkOptimize (recvMB xmitMB : ℚ)
  | rdsReadReplicas
  | rdsEnableMultiAZ
  | rdsRaiseBackupRetention (days : ℤ)
  | rdsSnapshotCleanup (count : Nat)
  | rdsDeadlocks (count : ℤ)
  | rdsBlockedTransactions (avg : ℚ)
  | rdsLargerInstance (burstBalance : ℚ)
  | rdsCoverage (coverage : GoFloat)
deriving DecidableEq, Repr

/-- The savings amount a recommendation line carries: the per-instance
monthly savings of the two upgrade checks and the per-volume monthly cost
of the stopped-instance and unattached-volume checks; every other line is
a heading, summary or fixed suggestion carrying no amount. -/
def recAmount : Rec → ℚ
  | .underutilItem _ _ _ s => s
  | .stoppedVolumeItem _ _ _ c => c
  | .unattachedItem _ _ _ c => c
  | .rdsUpgrade _ _ s => s
  | _ => 0

/-- Whether a recommendation line carries a computed savings or cost
amount at all. -/
def recCarriesAmount : Rec → Bool
  | .underutilItem _ _ _ _ => true
  | .stoppedVolumeItem _ _ _ _ => true
  | .unattachedItem _ _ _ _ => true
  | .rdsUpgrade _ _ _ => true
  | _ => false

/-- Whether a line is a per-instance EC2 upgrade recommendation. -/
def Rec.isUnderutilItem : Rec → Bool
  | .underutilItem _ _ _ _ => true
  | _ => false

/-- Whether a line is a per-instance RDS upgrade recommendation. -/
def Rec.isRdsUpgrade : Rec → Bool
  | .rdsUpgrade _ _ _ => true
  | _ => false

/-- The shared result record (types/blade.go, struct BladeResult);
BladeName, ResourceID, MonthlyCost and Timestamp are never set or read by
the analysis logic and are omitted; Details values are the numbers the
code formats into the detail strings. -/
structure BladeResult : Type where
  cloudProvider : String
  category : String
  resourceType : String
  potentialSavings : ℚ
  recommendations : List Rec
  details : List (String × GoFloat)
deriving DecidableEq, Repr

/-- An EC2 instance as read by the blade: id and type (tags are only used
for log output and are omitted). -/
structure EC2Instance : Type where
  instanceId : String
  instanceType : String
deriving DecidableEq, Repr

/-- An EBS volume as read by the blade. -/
structure EBSVolume : Type where
  volumeId : String
  volumeType : String
  size : ℤ
  state : String
deriving DecidableEq, Repr

/-- The collaborators of the EC2 blade: the EC2 client responses for the
four query shapes the blade issues (running-state filter, stopped-state
filter, all volumes, volumes attached to a given instance), the loaded
pricing data and the region.  DescribeInstances responses keep the
reservation nesting of the AWS API. -/
structure EC2Env : Type where
  runningInstances : Except String (List (List EC2Instance))
  stoppedInstances : Except String (List (List EC2Instance))
  allVolumes : Except String (List EBSVolume)
  volumesAttachedTo : String → Except String (List EBSVolume)
  pricing : EC2Pricing
  region : String

/-- A reordering of the entries of a Go map, standing for the unspecified
iteration order of a range statement over that map. -/
abbrev MapOrder : Type :=
  List (String × String × String × ℚ) → List (String × String × String × ℚ)

/-- Loop body of analyzeUnderutilizedInstances: look the instance type up
in the upgrade map, ask the pricing service for the savings, and on a
strictly positive result accumulate the savings and record the
per-instance entry (instance id mapped to current type, target type and
savings — the contents of the instanceSavings and instanceRecommendations
maps).  Lookup misses and pricing errors skip the instance. -/
def underutilStep (p : EC2Pricing) (region : String)
    (acc : ℚ × List (String × String × String × ℚ)) (inst : EC2Instance) :
    ℚ × List (String × String × String × ℚ) :=
  match mapFind instanceUpgrades inst.instanceType with
  | none => acc
  | some targetType =>
    match serviceCalculateInstanceSavings p inst.instanceType targetType region with
    | .error _ => acc
    | .ok savings =>
      if 0 < savings then
        (acc.1 + savings,
         mapInsert acc.2 inst.instanceId (inst.instanceType, targetType, savings))
      else acc

/-- The aggregation part of analyzeUnderutilizedInstances: total savings
and the per-instance map, accumulated over all instances of all
reservations of the running-state DescribeInstances response. -/
def analyzeUnderutilizedInstancesCore (env : EC2Env) :
    Except String (ℚ × List (String × String × String × ℚ)) :=
  match env.runningInstances with
  | .error e => .error e
  | .ok reservations =>
    .ok (reservations.flatten.foldl (underutilStep env.pricing env.region) (0, []))

/-- The recommendation lines of analyzeUnderutilizedInstances: when the
per-instance map is nonempty, a header counting its entries followed by
one line per map entry, in the map iteration order chosen by the runtime. -/
def underutilRecs (order : MapOrder)
    (entries : List (String × String × String × ℚ)) : List Rec :=
  if entries.length > 0 then
    Rec.underutilHeader entries.length ::
      (order entries).map (fun e => Rec.underutilItem e.1 e.2.1 e.2.2.1 e.2.2.2)
  else []

/-- analyzeUnderutilizedInstances: error when the running-instances
listing fails, otherwise total savings and recommendation lines. -/
def analyzeUnderutilizedInstances (env : EC2Env) (order : MapOrder) :
    Except String (ℚ × List Rec) :=
  (analyzeUnderutilizedInstancesCore env).map
    (fun st => (st.1, underutilRecs order st.2))

/-- Inner loop of analyzeStoppedInstances over the volumes attached to one
stopped instance: skip when the region is not priced or the price lookup
fails, otherwise add the volume's monthly cost (price per GB-month times
size) and its detail line. -/
def stoppedVolumeStep (p : EC2Pricing) (region instId : String)
    (acc : ℚ × List Rec) (v : EBSVolume) : ℚ × List Rec :=
  if ¬ isRegionSupported p region then acc
  else
    match getVolumePrice p v.volumeType region with
    | .error _ => acc
    | .ok price =>
      let monthlyCost := price * (v.size : ℚ)
      (acc.1 + monthlyCost,
       acc.2 ++ [Rec.stoppedVolumeItem instId v.volumeType v.size monthlyCost])

/-- Outer loop of analyzeStoppedInstances over the stopped instances:
a failed per-instance volume listing skips the instance entirely;
otherwise the instance id is recorded and its volume costs accumulated.
State: (stoppedInstances, potentialSavings, volumeDetails). -/
def stoppedStep (env : EC2Env) (acc : List String × ℚ × List Rec)
    (inst : EC2Instance) : List String × ℚ × List Rec :=
  match env.volumesAttachedTo inst.instanceId with
  | .error _ => acc
  | .ok vols =>
    let r := vols.foldl (stoppedVolumeStep env.pricing env.region inst.instanceId) (0, [])
    (acc.1 ++ [inst.instanceId], acc.2.1 + r.1, acc.2.2 ++ r.2)

/-- analyzeStoppedInstances: error when the stopped-instances listing
fails; otherwise, when any stopped instance was recorded, a header, the
per-volume detail lines, a totals line and the four fixed remediation
suggestions. -/
def analyzeStoppedInstances (env : EC2Env) : Except String (ℚ × List Rec) :=
  match env.stoppedInstances with
  | .error e => .error e
  | .ok reservations =>
    let st := reservations.flatten.foldl (stoppedStep env) ([], 0, [])
    let recs :=
      if st.1.length > 0 then
        Rec.stoppedHeader st.1.length :: st.2.2 ++
          [Rec.stoppedTotal st.2.1, Rec.adviceConsider, Rec.adviceTerminate,
           Rec.adviceSnapshotFirst, Rec.adviceAutomate, Rec.adviceRecreate]
      else []
    .ok (st.2.1, recs)

/-- Loop body of analyzeUnattachedVolumes: only volumes in state
available are considered; an unpriced region yields a pricing-unavailable
line without cost; a price lookup failure skips the volume; otherwise the
monthly cost is price per GB-month times size times 24 times 30. -/
def unattachedStep (p : EC2Pricing) (region : String) (acc : ℚ × List Rec)
    (v : EBSVolume) : ℚ × List Rec :=
  if v.state ≠ "available" then acc
  else if ¬ isRegionSupported p region then
    (acc.1, acc.2 ++ [Rec.unattachedNoPricing v.volumeId region])
  else
    match getVolumePrice p v.volumeType region with
    | .error _ => acc
    | .ok price =>
      let monthlyCost := price * (v.size : ℚ) * 24 * 30
      (acc.1 + monthlyCost,
       acc.2 ++ [Rec.unattachedItem v.volumeType v.volumeId v.size monthlyCost])

/-- analyzeUnattachedVolumes over the volumes of the top-level listing;
the Go function's error return is always nil. -/
def analyzeUnattachedVolumes (env : EC2Env) (volumes : List EBSVolume) :
    ℚ × List Rec :=
  volumes.foldl (unattachedStep env.pricing env.region) (0, [])

/-- The failure handling of EC2Blade.Execute around one check: a failed
check is logged and contributes nothing, a successful one contributes its
savings and recommendation lines. -/
def checkOrElse (x : Except String (ℚ × List Rec)) : ℚ × List Rec :=
  match x with
  | .error _ => (0, [])
  | .ok r => r

/-- EC2Blade.Execute: the top-level volume listing failure is returned as
an error; each of the three checks contributes its savings and
recommendation lines when it succeeds and is skipped (logged) when it
fails; the result accumulates in check order. -/
def ec2Execute (env : EC2Env) (order : MapOrder) : Except String BladeResult :=
  match env.allVolumes with
  | .error e => .error ("failed to describe volumes: " ++ e)
  | .ok volumes =>
    let u := checkOrElse (analyzeUnderutilizedInstances env order)
    let s := checkOrElse (analyzeStoppedInstances env)
    let v := analyzeUnattachedVolumes env volumes
    .ok { cloudProvider := "aws", category := "compute", resourceType := "EC2",
          potentialSavings := u.1 + s.1 + v.1,
          recommendations := u.2 ++ s.2 ++ v.2,
          details := [] }

/-- An RDS DB instance as read by the blade. Engine, class and MultiAZ are
nilable pointers in the API; AllocatedStorage and the identifier are
dereferenced unconditionally and modelled as present. -/
structure DBInstance : Type where
  dbInstanceIdentifier : String
  engine : Option String
  dbInstanceClass : Option String
  allocatedStorage : ℤ
  multiAZ : Option Bool
deriving DecidableEq, Repr

/-- An RDS DB snapshot as read by the blade: only its owning instance id. -/
structure DBSnapshot : Type where
  dbInstanceIdentifier : String
deriving DecidableEq, Repr

/-- A reserved DB instance record as read by the blade: only its state. -/
structure ReservedDBInstance : Type where
  state : Option String
deriving DecidableEq, Repr

/-- The per-instance metric aggregate computed by getInstanceMetrics from
CloudWatch (struct instanceMetrics): one scalar per tracked metric, plus
the backup retention copied from the instance record and the
class-derived max-connections estimate.  The CloudWatch retrieval and
averaging is collaborator I/O and is modelled as an environment call
returning this record or an error. -/
structure InstanceMetrics : Type where
  cpuUtilization : ℚ
  connectionCount : ℚ
  maxConnections : ℚ
  storageUtilization : ℚ
  readIOPS : ℚ
  writeIOPS : ℚ
  readLatency : ℚ
  writeLatency : ℚ
  swapUsage : ℚ
  networkReceive : ℚ
  networkTransmit : ℚ
  backupRetention : ℤ
  burstBalance : ℚ
  diskQueueDepth : ℚ
  deadlockCount : ℚ
  blockedTransactions : ℚ
deriving DecidableEq, Repr

/-- The collaborators of the RDS blade. -/
structure RDSEnv : Type where
  dbInstances : Except String (List DBInstance)
  dbSnapshots : Except String (List DBSnapshot)
  reservedDBInstances : Except String (List ReservedDBInstance)
  metrics : DBInstance → Except String InstanceMetrics
  pricing : EC2Pricing
  region : String

/-- The aurora-family engine test that skips an instance. -/
def isAuroraEngine (inst : DBInstance) : Bool :=
  match inst.engine with
  | some e => e = "aurora" || e = "aurora-mysql" || e = "aurora-postgresql"
  | none => false

/-- Heuristic 1, instance type optimization: upgrade-map lookup of the
instance class, pricing-service savings, recommendation only on a
strictly positive result.  Returns the savings added to instanceSavings
together with the optional recommendation line. -/
def rdsUpgradeCheck (p : EC2Pricing) (region : String) (inst : DBInstance) :
    ℚ × Option Rec :=
  match inst.dbInstanceClass with
  | none => (0, none)
  | some cls =>
    match mapFind rdsInstanceUpgrades cls with
    | none => (0, none)
    | some targetType =>
      match serviceCalculateInstanceSavings p cls targetType region with
      | .error _ => (0, none)
      | .ok savings =>
        if 0 < savings then (savings, some (Rec.rdsUpgrade cls targetType savings))
        else (0, none)

/-- Heuristic 2, resource utilization: CPU strictly below 40 and
connection count strictly below 0.4 of the max-connections estimate. -/
def rdsDownsizeCheck (m : InstanceMetrics) : Option Rec :=
  if m.cpuUtilization < 40 ∧ m.connectionCount < m.maxConnections * (4 / 10) then
    some (Rec.rdsDownsize m.cpuUtilization (m.connectionCount / m.maxConnections * 100))
  else none

/-- Heuristic 3, storage optimization: storage utilization strictly below
50 and allocated storage above 100 GB. -/
def rdsStorageCheck (m : InstanceMetrics) (inst : DBInstance) : Option Rec :=
  if m.storageUtilization < 50 ∧ 100 < inst.allocatedStorage then
    some (Rec.rdsReduceStorage inst.allocatedStorage m.storageUtilization)
  else none

/-- Heuristic 4, memory: swap usage above 50 MiB. -/
def rdsMemoryCheck (m : InstanceMetrics) : Option Rec :=
  if 50 * 1024 * 1024 < m.swapUsage then
    some (Rec.rdsMemoryUpgrade (m.swapUsage / (1024 * 1024)))
  else none

/-- Heuristic 5, performance: disk queue depth above 1. -/
def rdsDiskQueueCheck (m : InstanceMetrics) : Option Rec :=
  if 1 < m.diskQueueDepth then
    some (Rec.rdsProvisionedIOPS m.diskQueueDepth)
  else none

/-- Heuristic 5b, latency: read or write latency above 20 ms. -/
def rdsLatencyCheck (m : InstanceMetrics) : Option Rec :=
  if 2 / 100 < m.readLatency ∨ 2 / 100 < m.writeLatency then
    some (Rec.rdsStorageOptimize (m.readLatency * 1000) (m.writeLatency * 1000))
  else none

/-- Heuristic 6, network: receive or transmit throughput above 100 MiB/s. -/
def rdsNetworkCheck (m : InstanceMetrics) : Option Rec :=
  if (100 * 1024 * 1024 : ℚ) < m.networkReceive ∨
      (100 * 1024 * 1024 : ℚ) < m.networkTransmit then
    some (Rec.rdsNetworkOptimize (m.networkReceive / (1024 * 1024))
      (m.networkTransmit / (1024 * 1024)))
  else none

/-- Heuristic 7, Multi-AZ and read replicas: on a Multi-AZ deployment,
read IOPS above four times write IOPS suggests read replicas; otherwise
write IOPS above 1000 or connections above 0.7 of the estimate suggests
enabling Multi-AZ. -/
def rdsMultiAZCheck (m : InstanceMetrics) (inst : DBInstance) : Option Rec :=
  if inst.multiAZ = some true then
    if m.writeIOPS * 4 < m.readIOPS then some Rec.rdsReadReplicas else none
  else
    if 1000 < m.writeIOPS ∨ m.maxConnections * (7 / 10) < m.connectionCount then
      some Rec.rdsEnableMultiAZ
    else none

/-- Heuristic 8, backup retention strictly below 7 days. -/
def rdsBackupCheck (m : InstanceMetrics) : Option Rec :=
  if m.backupRetention < 7 then
    some (Rec.rdsRaiseBackupRetention m.backupRetention)
  else none

/-- Snapshot-count heuristic: more than 30 snapshots owned by the
instance. -/
def rdsSnapshotCountCheck (snapshotCount : Nat) : Option Rec :=
  if 30 < snapshotCount then some (Rec.rdsSnapshotCleanup snapshotCount)
  else none

/-- Heuristic 9, engine-specific analysis: MySQL-family deadlocks above 0
(truncated to int for display), Postgres blocked transactions above 5. -/
def rdsEngineCheck (inst : DBInstance) (m : InstanceMetrics) : Option Rec :=
  match inst.engine with
  | none => none
  | some e =>
    if e = "mysql" ∨ e = "mariadb" then
      if 0 < m.deadlockCount then some (Rec.rdsDeadlocks ⌊m.deadlockCount⌋)
      else none
    else if e = "postgres" then
      if 5 < m.blockedTransactions then
        some (Rec.rdsBlockedTransactions m.blockedTransactions)
      else none
    else none

/-- Heuristic 10, burst balance strictly below 20. -/
def rdsBurstCheck (m : InstanceMetrics) : Option Rec :=
  if m.burstBalance < 20 then some (Rec.rdsLargerInstance m.burstBalance)
  else none

/-- Number of snapshots owned by the given instance id. -/
def snapshotCountFor (snaps : List DBSnapshot) (id : String) : Nat :=
  (snaps.filter (fun s => s.dbInstanceIdentifier = id)).length

/-- The full per-instance heuristic battery of RDSBlade.Execute, in source
order, given the metrics and the snapshot count: the instanceSavings
accumulated (only heuristic 1 contributes) and the per-instance
recommendation lines. -/
def rdsInstanceItems (p : EC2Pricing) (region : String) (inst : DBInstance)
    (m : InstanceMetrics) (snapshotCount : Nat) : ℚ × List Rec :=
  let up := rdsUpgradeCheck p region inst
  (up.1,
    up.2.toList ++ (rdsDownsizeCheck m).toList ++ (rdsStorageCheck m inst).toList ++
    (rdsMemoryCheck m).toList ++ (rdsDiskQueueCheck m).toList ++
    (rdsLatencyCheck m).toList ++ (rdsNetworkCheck m).toList ++
    (rdsMultiAZCheck m inst).toList ++ (rdsBackupCheck m).toList ++
    (rdsSnapshotCountCheck snapshotCount).toList ++
    (rdsEngineCheck inst m).toList ++ (rdsBurstCheck m).toList)

/-- Per-instance processing of RDSBlade.Execute.  Aurora-family instances
and instances whose metric retrieval fails are skipped entirely
(contributing no savings and no lines).  Otherwise the snapshot counting
loop dereferences the DescribeDBSnapshots output; when that listing
failed, the output pointer is nil and the dereference is a Go nil-pointer
panic, modelled as none.  A processed instance with at least one
recommendation yields a header line followed by its items. -/
def processInstance (env : RDSEnv) (snaps : Option (List DBSnapshot))
    (inst : DBInstance) : Option (ℚ × List Rec) :=
  if isAuroraEngine inst then some (0, [])
  else
    match env.metrics inst with
    | .error _ => some (0, [])
    | .ok m =>
      match snaps with
      | none => none
      | some snapList =>
        let r := rdsInstanceItems env.pricing env.region inst m
          (snapshotCountFor snapList inst.dbInstanceIdentifier)
        let block :=
          if r.2 ≠ [] then Rec.rdsInstanceHeader inst.dbInstanceIdentifier :: r.2
          else []
        some (r.1, block)

/-- Sequential per-instance processing, stopping at the first panic. -/
def collectContribs (env : RDSEnv) (snaps : Option (List DBSnapshot)) :
    List DBInstance → Option (List (ℚ × List Rec))
  | [] => some []
  | inst :: rest =>
    match processInstance env snaps inst with
    | none => none
    | some c =>
      match collectContribs env snaps rest with
      | none => none
      | some cs => some (c :: cs)

/-- Outcome of RDSBlade.Execute: a result, a returned error, or a runtime
panic. -/
inductive RDSOutcome : Type where
  | ok (result : BladeResult)
  | err (msg : String)
  | panicked
deriving DecidableEq, Repr

/-- RDSBlade.Execute: a DB-instance listing failure is returned as an
error; a snapshot listing failure is logged, leaving a nil snapshots
output; every non-Aurora instance with retrievable metrics runs the
heuristic battery; afterwards the reserved-instance coverage is computed
(count of active reservations over count of all listed DB instances,
times 100, in float64 arithmetic) and a coverage below 80 adds a coverage
recommendation; a reserved listing failure skips that step. -/
def rdsExecute (env : RDSEnv) : RDSOutcome :=
  match env.dbInstances with
  | .error e => .err ("failed to describe DB instances: " ++ e)
  | .ok instances =>
    let snaps : Option (List DBSnapshot) :=
      match env.dbSnapshots with
      | .error _ => none
      | .ok l => some l
    match collectContribs env snaps instances with
    | none => .panicked
    | some contribs =>
      let totalSavings := (contribs.map Prod.fst).sum
      let instanceRecs := (contribs.map Prod.snd).flatten
      let cov :=
        match env.reservedDBInstances with
        | .error _ => (([] : List Rec), ([] : List (String × GoFloat)))
        | .ok rs =>
          let activeReserved :=
            (rs.filter (fun ri : ReservedDBInstance => ri.state = some "active")).length
          let coverage :=
            goMul (goDiv (GoFloat.finite (activeReserved : ℚ))
              (GoFloat.finite (instances.length : ℚ))) (GoFloat.finite 100)
          ((if goLt coverage (GoFloat.finite 80) then [Rec.rdsCoverage coverage]
            else []),
           [("Reserved Instance Coverage", coverage)])
      .ok { cloudProvider := "aws", category := "database",
            resourceType := "RDS",
            potentialSavings := totalSavings,
            recommendations := instanceRecs ++ cov.1,
            details := cov.2 ++ [("Total Monthly Savings", GoFloat.finite totalSavings)] }

/-- Modelled from the spec: the monthly savings of switching an instance
from its current type to a given target type — the hourly on-demand price
difference between the two named types over the 720-hour month used by
the code.  Used to compare the specified savings computation against the
implemented one. -/
def specSwitchSavings (p : EC2Pricing) (region currentType targetType : String) :
    Option ℚ :=
  match mapFind p.onDemandInstances region with
  | none => none
  | some regionPricing =>
    match mapFind regionPricing currentType, mapFind regionPricing targetType with
    | some cur, some tgt => some ((cur.pricePerHour - tgt.pricePerHour) * 720)
    | _, _ => none

/-- Savings component of a per-instance entry of the underutilized check. -/
def entrySavings (e : String × String × String × ℚ) : ℚ := e.2.2.2

/-! Concrete collaborator data used to instantiate and refute the claims. -/

/-- A small pricing table in the shape of the shipped ec2_pricing.json. -/
def samplePricing : EC2Pricing :=
  { regionMapping := [("us-east-1", "US East (N. Virginia)")],
    onDemandInstances :=
      [("us-east-1",
        [("t2.micro", ⟨3, some "t3.micro", none⟩),
         ("t3.micro", ⟨1, none, none⟩),
         ("t2.small", ⟨4, some "t3.small", none⟩),
         ("t3.small", ⟨1, none, none⟩)])],
    ebsVolumes := [("us-east-1", [("gp2", ⟨2⟩)])] }

/-- Duplicate running instance ids plus a zero-sized attached volume:
exhibits a double-counted savings sum and a reported zero-cost line. -/
def c1CexEnv : EC2Env :=
  { runningInstances := .ok [[⟨"i-dup", "t2.micro"⟩, ⟨"i-dup", "t2.micro"⟩]],
    stoppedInstances := .ok [[⟨"i-stop", "t2.micro"⟩]],
    allVolumes := .ok [],
    volumesAttachedTo := fun id =>
      if id = "i-stop" then .ok [⟨"vol-0", "gp2", 0, "in-use"⟩] else .ok [],
    pricing := samplePricing,
    region := "us-east-1" }

/-- One running upgradable instance, nothing else. -/
def c1WEnv : EC2Env :=
  { runningInstances := .ok [[⟨"i-1", "t2.micro"⟩]],
    stoppedInstances := .ok [],
    allVolumes := .ok [],
    volumesAttachedTo := fun _ => .ok [],
    pricing := samplePricing,
    region := "us-east-1" }

/-- One unattached volume and one stopped instance with an attached
volume, for the two cost formulas. -/
def c2WEnv : EC2Env :=
  { runningInstances := .ok [],
    stoppedInstances := .ok [[⟨"i-s", "t2.micro"⟩]],
    allVolumes := .ok [⟨"vol-u", "gp2", 100, "available"⟩],
    volumesAttachedTo := fun id =>
      if id = "i-s" then .ok [⟨"vol-a", "gp2", 50, "in-use"⟩] else .ok [],
    pricing := samplePricing,
    region := "us-east-1" }

/-- The instance listing fails while the volume listing succeeds. -/
def c3CexEnv : EC2Env :=
  { runningInstances := .error "instance listing failed",
    stoppedInstances := .ok [],
    allVolumes := .ok [],
    volumesAttachedTo := fun _ => .ok [],
    pricing := samplePricing,
    region := "us-east-1" }

/-- Two running upgradable instances, so the per-instance map has two
entries whose emission order is runtime-chosen. -/
def c4Env : EC2Env :=
  { runningInstances := .ok [[⟨"i-a", "t2.micro"⟩, ⟨"i-b", "t2.small"⟩]],
    stoppedInstances := .ok [],
    allVolumes := .ok [],
    volumesAttachedTo := fun _ => .ok [],
    pricing := samplePricing,
    region := "us-east-1" }

/-- A pricing table whose own recommended upgrade for t2.micro differs
from the blade upgrade map's target t3.micro. -/
def c5Pricing : EC2Pricing :=
  { regionMapping := [("us-east-1", "US East (N. Virginia)")],
    onDemandInstances :=
      [("us-east-1",
        [("t2.micro", ⟨3, some "t3.large", none⟩),
         ("t3.large", ⟨1, none, none⟩),
         ("t3.micro", ⟨2, none, none⟩)])],
    ebsVolumes := [] }

/-- One running t2.micro analyzed against c5Pricing. -/
def c5Env : EC2Env :=
  { runningInstances := .ok [[⟨"i-1", "t2.micro"⟩]],
    stoppedInstances := .ok [],
    allVolumes := .ok [],
    volumesAttachedTo := fun _ => .ok [],
    pricing := c5Pricing,
    region := "us-east-1" }

/-- One running instance whose type has no upgrade-map entry, next to an
upgradable one. -/
def c6Env : EC2Env :=
  { runningInstances := .ok [[⟨"i-x", "m7.mega"⟩, ⟨"i-1", "t2.micro"⟩]],
    stoppedInstances := .ok [],
    allVolumes := .ok [],
    volumesAttachedTo := fun _ => .ok [],
    pricing := samplePricing,
    region := "us-east-1" }

/-- Metric aggregate with every scalar zero. -/
def mZero : InstanceMetrics := ⟨0, 0, 0, 0, 0, 0, 0, 0, 0, 0, 0, 0, 0, 0, 0, 0⟩

/-- Metrics sitting exactly on the CPU and storage thresholds. -/
def mBoundary : InstanceMetrics :=
  { mZero with cpuUtilization := 40, storageUtilization := 50 }

/-- A DB instance whose class has no upgrade-map entry. -/
def c6DbInstance : DBInstance := ⟨"db-x", some "mysql", some "db.huge.999", 10, none⟩

/-- RDS environment around c6DbInstance. -/
def c6REnv : RDSEnv :=
  { dbInstances := .ok [c6DbInstance],
    dbSnapshots := .ok [],
    reservedDBInstances := .ok [],
    metrics := fun _ => .ok mZero,
    pricing := samplePricing,
    region := "us-east-1" }

/-- Empty DB fleet with a failing reserved-capacity listing. -/
def c3WREnv : RDSEnv :=
  { dbInstances := .ok [],
    dbSnapshots := .ok [],
    reservedDBInstances := .error "reserved listing failed",
    metrics := fun _ => .error "unused",
    pricing := samplePricing,
    region := "us-east-1" }

/-- Two DB instances; metric retrieval fails for the first only. -/
def c8Env : RDSEnv :=
  { dbInstances := .ok [⟨"db-a", some "mysql", none, 10, none⟩,
      ⟨"db-b", some "mysql", none, 10, none⟩],
    dbSnapshots := .ok [],
    reservedDBInstances := .ok [],
    metrics := fun i =>
      if i.dbInstanceIdentifier = "db-a" then .error "cloudwatch unavailable"
      else .ok mZero,
    pricing := samplePricing,
    region := "us-east-1" }

/-- A non-Aurora instance with retrievable metrics while the snapshot
listing failed. -/
def c9Env : RDSEnv :=
  { dbInstances := .ok [⟨"db-1", some "mysql", none, 10, none⟩],
    dbSnapshots := .error "snapshot listing failed",
    reservedDBInstances := .ok [],
    metrics := fun _ => .ok mZero,
    pricing := samplePricing,
    region := "us-east-1" }

/-- Empty DB inventory with one active reservation. -/
def c10Env : RDSEnv :=
  { dbInstances := .ok [],
    dbSnapshots := .error "snapshot listing failed",
    reservedDBInstances := .ok [⟨some "active"⟩],
    metrics := fun _ => .error "unused",
    pricing := samplePricing,
    region := "us-east-1" }

/-- The result the compute analyzer produces on c1CexEnv. -/
def c1CexResult : BladeResult :=
  { cloudProvider := "aws", category := "compute", resourceType := "EC2",
    potentialSavings := 2880,
    recommendations := [Rec.underutilHeader 1,
      Rec.underutilItem "i-dup" "t2.micro" "t3.micro" 1440,
      Rec.stoppedHeader 1, Rec.stoppedVolumeItem "i-stop" "gp2" 0 0,
      Rec.stoppedTotal 0, Rec.adviceConsider, Rec.adviceTerminate,
      Rec.adviceSnapshotFirst, Rec.adviceAutomate, Rec.adviceRecreate],
    details := [] }

/-- The result the database analyzer produces on c8Env. -/
def c8Result : BladeResult :=
  { cloudProvider := "aws", category := "database", resourceType := "RDS",
    potentialSavings := 0,
    recommendations := [Rec.rdsInstanceHeader "db-b",
      Rec.rdsRaiseBackupRetention 0, Rec.rdsLargerInstance 0,
      Rec.rdsCoverage (GoFloat.finite 0)],
    details := [("Reserved Instance Coverage", GoFloat.finite 0),
      ("Total Monthly Savings", GoFloat.finite 0)] }

/-! Helper lemmas about the Go-map model. -/

theorem mapFind_mem {α : Type} {m : List (String × α)} {k : String} {v : α}
    (h : mapFind m k = some v) : (k, v) ∈ m := by
  induction m with
  | nil => simp [mapFind] at h
  | cons hd tl ih =>
    obtain ⟨k', v'⟩ := hd
    by_cases hk : k' = k
    · subst hk
      simp [mapFind] at h
      simp [h]
    · simp [mapFind, hk] at h
      exact List.mem_cons_of_mem _ (ih h)

theorem mapFind_some_key_mem {α : Type} {m : List (String × α)} {k : String}
    {v : α} (h : mapFind m k = some v) : k ∈ m.map Prod.fst := by
  have := mapFind_mem h
  exact List.mem_map.2 ⟨(k, v), this, rfl⟩

theorem mapInsert_of_find_none {α : Type} {m : List (String × α)} {k : String}
    (h : mapFind m k = none) (v : α) : mapInsert m k v = m ++ [(k, v)] := by
  induction m with
  | nil => rfl
  | cons hd tl ih =>
    obtain ⟨k', v'⟩ := hd
    by_cases hk : k' = k
    · simp [mapFind, hk] at h
    · simp [mapFind, hk] at h
      simp [mapInsert, hk, ih h]

theorem mem_mapInsert {α : Type} {m : List (String × α)} {k : String} {v : α}
    {x : String × α} (h : x ∈ mapInsert m k v) : x = (k, v) ∨ x ∈ m := by
  induction m with
  | nil => simpa [mapInsert] using h
  | cons hd tl ih =>
    obtain ⟨k', v'⟩ := hd
    by_cases hk : k' = k
    · simp [mapInsert, hk] at h
      rcases h with h | h
      · exact Or.inl h
      · exact Or.inr (List.mem_cons_of_mem _ h)
    · simp [mapInsert, hk] at h
      rcases h with h | h
      · exact Or.inr (by simp [h])
      · rcases ih h with h' | h'
        · exact Or.inl h'
        · exact Or.inr (List.mem_cons_of_mem _ h')

/-! Fold lemmas for the underutilized-instances check. -/

theorem underutil_foldl_mem (p : EC2Pricing) (region : String) :
    ∀ (l : List EC2Instance) (acc : ℚ × List (String × String × String × ℚ))
      (x : String × String × String × ℚ),
    x ∈ (l.foldl (underutilStep p region) acc).2 →
    x ∈ acc.2 ∨
      ∃ inst ∈ l, inst.instanceId = x.1 ∧ inst.instanceType = x.2.1 ∧
        mapFind instanceUpgrades x.2.1 = some x.2.2.1 ∧
        serviceCalculateInstanceSavings p x.2.1 x.2.2.1 region = .ok x.2.2.2 ∧
        0 < x.2.2.2 := by
  intro l
  induction l with
  | nil => intro acc x h; exact Or.inl h
  | cons a l ih =>
    intro acc x h
    rw [List.foldl_cons] at h
    rcases ih _ x h with hstep | ⟨inst, hmem, hrest⟩
    · unfold underutilStep at hstep
      rcases hfind : mapFind instanceUpgrades a.instanceType with _ | tgt
      · simp only [hfind] at hstep; exact Or.inl hstep
      · simp only [hfind] at hstep
        rcases hcalc : serviceCalculateInstanceSavings p a.instanceType tgt region
          with e | s
        · simp only [hcalc] at hstep; exact Or.inl hstep
        · simp only [hcalc] at hstep
          by_cases hs : 0 < s
          · rw [if_pos hs] at hstep
            rcases mem_mapInsert hstep with hx | hx
            · subst hx
              exact Or.inr ⟨a, List.mem_cons_self a l, rfl, rfl, hfind, hcalc, hs⟩
            · exact Or.inl hx
          · rw [if_neg hs] at hstep; exact Or.inl hstep
    · exact Or.inr ⟨inst, List.mem_cons_of_mem _ hmem, hrest⟩

theorem underutil_foldl_sum (p : EC2Pricing) (region : String) :
    ∀ (l : List EC2Instance) (tot : ℚ) (m : List (String × String × String × ℚ)),
    (l.map EC2Instance.instanceId).Nodup →
    (∀ k, k ∈ m.map Prod.fst → k ∉ l.map EC2Instance.instanceId) →
    tot = (m.map entrySavings).sum →
    (l.foldl (underutilStep p region) (tot, m)).1 =
      ((l.foldl (underutilStep p region) (tot, m)).2.map entrySavings).sum := by
  intro l
  induction l with
  | nil => intro tot m _ _ htot; simpa using htot
  | cons a l ih =>
    intro tot m hnodup hfresh htot
    rw [List.map_cons, List.nodup_cons] at hnodup
    obtain ⟨hahd, hnodup'⟩ := hnodup
    rw [List.foldl_cons]
    have hskip :
        ∀ k, k ∈ m.map Prod.fst → k ∉ l.map EC2Instance.instanceId := by
      intro k hk hmem
      exact hfresh k hk (by simp [hmem])
    show (l.foldl (underutilStep p region) (underutilStep p region (tot, m) a)).1 = _
    unfold underutilStep
    rcases hfind : mapFind instanceUpgrades a.instanceType with _ | tgt
    · simp only [hfind]
      exact ih tot m hnodup' hskip htot
    · simp only [hfind]
      rcases hcalc : serviceCalculateInstanceSavings p a.instanceType tgt region
        with e | s
      · simp only [hcalc]
        exact ih tot m hnodup' hskip htot
      · simp only [hcalc]
        by_cases hs : 0 < s
        · rw [if_pos hs]
          have hnone : mapFind m a.instanceId = none := by
            rcases hval : mapFind m a.instanceId with _ | v
            · rfl
            · exact absurd (by simp) (hfresh a.instanceId (mapFind_some_key_mem hval))
          rw [mapInsert_of_find_none hnone]
          apply ih
          · exact hnodup'
          · intro k hk
            rw [List.map_append] at hk
            rcases List.mem_append.1 hk with hk | hk
            · exact hskip k hk
            · simp at hk
              subst hk
              exact hahd
          · rw [List.map_append, List.sum_append]
            simp [entrySavings, htot]
        · rw [if_neg hs]
          exact ih tot m hnodup' hskip htot

/-! Fold lemmas for the stopped-instances check. -/

theorem stoppedVolume_foldl_sum (p : EC2Pricing) (region instId : String) :
    ∀ (vols : List EBSVolume) (tot : ℚ) (racc : List Rec),
    tot = (racc.map recAmount).sum →
    (vols.foldl (stoppedVolumeStep p region instId) (tot, racc)).1 =
      ((vols.foldl (stoppedVolumeStep p region instId) (tot, racc)).2.map
        recAmount).sum := by
  intro vols
  induction vols with
  | nil => intro tot racc htot; simpa using htot
  | cons v vols ih =>
    intro tot racc htot
    rw [List.foldl_cons]
    unfold stoppedVolumeStep
    by_cases hreg : isRegionSupported p region
    · rw [if_neg (by simpa using hreg)]
      rcases hp : getVolumePrice p v.volumeType region with e | price
      · simp only [hp]
        exact ih tot racc htot
      · simp only [hp]
        apply ih
        rw [List.map_append, List.sum_append]
        simp [recAmount, htot]
    · rw [if_pos (by simpa using hreg)]
      exact ih tot racc htot

theorem stoppedVolume_foldl_mem (p : EC2Pricing) (region instId : String) :
    ∀ (vols : List EBSVolume) (acc : ℚ × List Rec) (x : Rec),
    x ∈ (vols.foldl (stoppedVolumeStep p region instId) acc).2 →
    x ∈ acc.2 ∨ ∃ t sz c, x = Rec.stoppedVolumeItem instId t sz c ∧
      ∃ pr, getVolumePrice p t region = .ok pr ∧ c = pr * (sz : ℚ) := by
  intro vols
  induction vols with
  | nil => intro acc x h; exact Or.inl h
  | cons v vols ih =>
    intro acc x h
    rw [List.foldl_cons] at h
    rcases ih _ x h with hstep | hrest
    · unfold stoppedVolumeStep at hstep
      by_cases hreg : isRegionSupported p region
      · rw [if_neg (by simpa using hreg)] at hstep
        rcases hp : getVolumePrice p v.volumeType region with e | price
        · simp only [hp] at hstep; exact Or.inl hstep
        · simp only [hp] at hstep
          rcases List.mem_append.1 hstep with hx | hx
          · exact Or.inl hx
          · simp at hx
            exact Or.inr ⟨v.volumeType, v.size, _, hx, price, hp, rfl⟩
      · rw [if_pos (by simpa using hreg)] at hstep
        exact Or.inl hstep
    · exact Or.inr hrest

theorem stopped_foldl_sum (env : EC2Env) :
    ∀ (l : List EC2Instance) (acc : List String × ℚ × List Rec),
    acc.2.1 = (acc.2.2.map recAmount).sum →
    (l.foldl (stoppedStep env) acc).2.1 =
      ((l.foldl (stoppedStep env) acc).2.2.map recAmount).sum := by
  intro l
  induction l with
  | nil => intro acc h; simpa using h
  | cons a l ih =>
    intro acc h
    rw [List.foldl_cons]
    unfold stoppedStep
    rcases hv : env.volumesAttachedTo a.instanceId with e | vols
    · simp only [hv]
      exact ih _ h
    · simp only [hv]
      apply ih
      have hinner := stoppedVolume_foldl_sum env.pricing env.region a.instanceId
        vols 0 [] (by simp)
      simp only []
      rw [List.map_append, List.sum_append, h, hinner]

theorem stopped_foldl_mem (env : EC2Env) :
    ∀ (l : List EC2Instance) (acc : List String × ℚ × List Rec) (x : Rec),
    x ∈ (l.foldl (stoppedStep env) acc).2.2 →
    x ∈ acc.2.2 ∨ ∃ id t sz c, x = Rec.stoppedVolumeItem id t sz c ∧
      ∃ pr, getVolumePrice env.pricing t env.region = .ok pr ∧
        c = pr * (sz : ℚ) := by
  intro l
  induction l with
  | nil => intro acc x h; exact Or.inl h
  | cons a l ih =>
    intro acc x h
    rw [List.foldl_cons] at h
    rcases ih _ x h with hstep | hrest
    · unfold stoppedStep at hstep
      rcases hv : env.volumesAttachedTo a.instanceId with e | vols
      · simp only [hv] at hstep; exact Or.inl hstep
      · simp only [hv] at hstep
        rcases List.mem_append.1 hstep with hx | hx
        · exact Or.inl hx
        · rcases stoppedVolume_foldl_mem env.pricing env.region a.instanceId
            vols (0, []) x hx with hnil | ⟨t, sz, c, hx', hpr⟩
          · simp at hnil
          · exact Or.inr ⟨a.instanceId, t, sz, c, hx', hpr⟩
    · exact Or.inr hrest

theorem stopped_foldl_ids_ext (env : EC2Env) :
    ∀ (l : List EC2Instance) (acc : List String × ℚ × List Rec),
    ∃ t, (l.foldl (stoppedStep env) acc).1 = acc.1 ++ t := by
  intro l
  induction l with
  | nil => intro acc; exact ⟨[], by simp⟩
  | cons a l ih =>
    intro acc
    rw [List.foldl_cons]
    unfold stoppedStep
    rcases hv : env.volumesAttachedTo a.instanceId with e | vols
    · simp only [hv]
      exact ih acc
    · simp only [hv]
      obtain ⟨t, ht⟩ := ih (acc.1 ++ [a.instanceId],
        acc.2.1 + (vols.foldl (stoppedVolumeStep env.pricing env.region
          a.instanceId) (0, [])).1,
        acc.2.2 ++ (vols.foldl (stoppedVolumeStep env.pricing env.region
          a.instanceId) (0, [])).2)
      exact ⟨[a.instanceId] ++ t, by simpa [List.append_assoc] using ht⟩

theorem stoppedStep_err {env : EC2Env} {inst : EC2Instance} {e : String}
    (hv : env.volumesAttachedTo inst.instanceId = .error e)
    (acc : List String × ℚ × List Rec) : stoppedStep env acc inst = acc := by
  unfold stoppedStep
  simp only [hv]

theorem stoppedStep_ok {env : EC2Env} {inst : EC2Instance}
    {vols : List EBSVolume}
    (hv : env.volumesAttachedTo inst.instanceId = .ok vols)
    (acc : List String × ℚ × List Rec) :
    stoppedStep env acc inst =
      (acc.1 ++ [inst.instanceId],
       acc.2.1 + (vols.foldl (stoppedVolumeStep env.pricing env.region
         inst.instanceId) (0, [])).1,
       acc.2.2 ++ (vols.foldl (stoppedVolumeStep env.pricing env.region
         inst.instanceId) (0, [])).2) := by
  unfold stoppedStep
  simp only [hv]

theorem stopped_foldl_ids_nil (env : EC2Env) :
    ∀ (l : List EC2Instance) (acc : List String × ℚ × List Rec),
    (l.foldl (stoppedStep env) acc).1 = [] →
    l.foldl (stoppedStep env) acc = acc := by
  intro l
  induction l with
  | nil => intro acc _; rfl
  | cons a l ih =>
    intro acc h
    rw [List.foldl_cons] at h ⊢
    rcases hv : env.volumesAttachedTo a.instanceId with e | vols
    · rw [stoppedStep_err hv] at h ⊢
      exact ih acc h
    · rw [stoppedStep_ok hv] at h
      exfalso
      obtain ⟨t, ht⟩ := stopped_foldl_ids_ext env l
        (acc.1 ++ [a.instanceId],
         acc.2.1 + (vols.foldl (stoppedVolumeStep env.pricing env.region
           a.instanceId) (0, [])).1,
         acc.2.2 ++ (vols.foldl (stoppedVolumeStep env.pricing env.region
           a.instanceId) (0, [])).2)
      rw [ht] at h
      simp at h

/-! Fold lemmas for the unattached-volumes check. -/

theorem unattached_foldl_sum (p : EC2Pricing) (region : String) :
    ∀ (vols : List EBSVolume) (tot : ℚ) (racc : List Rec),
    tot = (racc.map recAmount).sum →
    (vols.foldl (unattachedStep p region) (tot, racc)).1 =
      ((vols.foldl (unattachedStep p region) (tot, racc)).2.map recAmount).sum := by
  intro vols
  induction vols with
  | nil => intro tot racc htot; simpa using htot
  | cons v vols ih =>
    intro tot racc htot
    rw [List.foldl_cons]
    unfold unattachedStep
    by_cases hav : v.state ≠ "available"
    · rw [if_pos hav]
      exact ih tot racc htot
    · rw [if_neg hav]
      by_cases hreg : isRegionSupported p region
      · rw [if_neg (by simpa using hreg)]
        rcases hp : getVolumePrice p v.volumeType region with e | price
        · simp only [hp]
          exact ih tot racc htot
        · simp only [hp]
          apply ih
          rw [List.map_append, List.sum_append]
          simp [recAmount, htot]
      · rw [if_pos (by simpa using hreg)]
        apply ih
        rw [List.map_append, List.sum_append]
        simp [recAmount, htot]

theorem unattached_foldl_mem (p : EC2Pricing) (region : String) :
    ∀ (vols : List EBSVolume) (acc : ℚ × List Rec) (x : Rec),
    x ∈ (vols.foldl (unattachedStep p region) acc).2 →
    x ∈ acc.2 ∨ (∃ vid reg, x = Rec.unattachedNoPricing vid reg) ∨
      ∃ t vid sz c, x = Rec.unattachedItem t vid sz c ∧
        ∃ pr, getVolumePrice p t region = .ok pr ∧
          c = pr * (sz : ℚ) * 24 * 30 := by
  intro vols
  induction vols with
  | nil => intro acc x h; exact Or.inl h
  | cons v vols ih =>
    intro acc x h
    rw [List.foldl_cons] at h
    rcases ih _ x h with hstep | hrest
    · unfold unattachedStep at hstep
      by_cases hav : v.state ≠ "available"
      · rw [if_pos hav] at hstep
        exact Or.inl hstep
      · rw [if_neg hav] at hstep
        by_cases hreg : isRegionSupported p region
        · rw [if_neg (by simpa using hreg)] at hstep
          rcases hp : getVolumePrice p v.volumeType region with e | price
          · simp only [hp] at hstep; exact Or.inl hstep
          · simp only [hp] at hstep
            rcases List.mem_append.1 hstep with hx | hx
            · exact Or.inl hx
            · simp at hx
              exact Or.inr (Or.inr ⟨v.volumeType, v.volumeId, v.size, _, hx,
                price, hp, rfl⟩)
        · rw [if_pos (by simpa using hreg)] at hstep
          rcases List.mem_append.1 hstep with hx | hx
          · exact Or.inl hx
          · simp at hx
            exact Or.inr (Or.inl ⟨v.volumeId, region, hx⟩)
    · exact Or.inr hrest

/-! Shape lemmas for the RDS heuristic battery: which recommendation
constructors each heuristic can produce, and under which conditions. -/

theorem rdsUpgradeCheck_cases (p : EC2Pricing) (region : String)
    (inst : DBInstance) :
    rdsUpgradeCheck p region inst = (0, none) ∨
    ∃ c t s, inst.dbInstanceClass = some c ∧
      mapFind rdsInstanceUpgrades c = some t ∧
      serviceCalculateInstanceSavings p c t region = .ok s ∧ 0 < s ∧
      rdsUpgradeCheck p region inst = (s, some (Rec.rdsUpgrade c t s)) := by
  rcases hc : inst.dbInstanceClass with _ | c
  · left
    unfold rdsUpgradeCheck
    rw [hc]
  · rcases hf : mapFind rdsInstanceUpgrades c with _ | t
    · left
      unfold rdsUpgradeCheck
      rw [hc]
      simp only [hf]
    · rcases hs : serviceCalculateInstanceSavings p c t region with e | s
      · left
        unfold rdsUpgradeCheck
        rw [hc]
        simp only [hf, hs]
      · by_cases h : 0 < s
        · refine Or.inr ⟨c, t, s, rfl, hf, hs, h, ?_⟩
          unfold rdsUpgradeCheck
          rw [hc]
          simp only [hf, hs]
          rw [if_pos h]
        · left
          unfold rdsUpgradeCheck
          rw [hc]
          simp only [hf, hs]
          rw [if_neg h]

theorem rdsDownsizeCheck_some {m : InstanceMetrics} {r : Rec}
    (h : rdsDownsizeCheck m = some r) :
    (m.cpuUtilization < 40 ∧ m.connectionCount < m.maxConnections * (4 / 10)) ∧
      r = Rec.rdsDownsize m.cpuUtilization
        (m.connectionCount / m.maxConnections * 100) := by
  unfold rdsDownsizeCheck at h
  split at h
  · next hc => exact ⟨hc, (Option.some.inj h).symm⟩
  · cases h

theorem rdsStorageCheck_some {m : InstanceMetrics} {inst : DBInstance} {r : Rec}
    (h : rdsStorageCheck m inst = some r) :
    (m.storageUtilization < 50 ∧ 100 < inst.allocatedStorage) ∧
      r = Rec.rdsReduceStorage inst.allocatedStorage m.storageUtilization := by
  unfold rdsStorageCheck at h
  split at h
  · next hc => exact ⟨hc, (Option.some.inj h).symm⟩
  · cases h

theorem rdsMemoryCheck_some {m : InstanceMetrics} {r : Rec}
    (h : rdsMemoryCheck m = some r) : ∃ x, r = Rec.rdsMemoryUpgrade x := by
  unfold rdsMemoryCheck at h
  split at h
  · exact ⟨_, (Option.some.inj h).symm⟩
  · cases h

theorem rdsDiskQueueCheck_some {m : InstanceMetrics} {r : Rec}
    (h : rdsDiskQueueCheck m = some r) : ∃ x, r = Rec.rdsProvisionedIOPS x := by
  unfold rdsDiskQueueCheck at h
  split at h
  · exact ⟨_, (Option.some.inj h).symm⟩
  · cases h

theorem rdsLatencyCheck_some {m : InstanceMetrics} {r : Rec}
    (h : rdsLatencyCheck m = some r) : ∃ a b, r = Rec.rdsStorageOptimize a b := by
  unfold rdsLatencyCheck at h
  split at h
  · exact ⟨_, _, (Option.some.inj h).symm⟩
  · cases h

theorem rdsNetworkCheck_some {m : InstanceMetrics} {r : Rec}
    (h : rdsNetworkCheck m = some r) : ∃ a b, r = Rec.rdsNetworkOptimize a b := by
  unfold rdsNetworkCheck at h
  split at h
  · exact ⟨_, _, (Option.some.inj h).symm⟩
  · cases h

theorem rdsMultiAZCheck_some {m : InstanceMetrics} {inst : DBInstance} {r : Rec}
    (h : rdsMultiAZCheck m inst = some r) :
    r = Rec.rdsReadReplicas ∨ r = Rec.rdsEnableMultiAZ := by
  unfold rdsMultiAZCheck at h
  split at h
  · split at h
    · exact Or.inl (Option.some.inj h).symm
    · cases h
  · split at h
    · exact Or.inr (Option.some.inj h).symm
    · cases h

theorem rdsBackupCheck_some {m : InstanceMetrics} {r : Rec}
    (h : rdsBackupCheck m = some r) :
    ∃ d, r = Rec.rdsRaiseBackupRetention d := by
  unfold rdsBackupCheck at h
  split at h
  · exact ⟨_, (Option.some.inj h).symm⟩
  · cases h

theorem rdsSnapshotCountCheck_some {n : Nat} {r : Rec}
    (h : rdsSnapshotCountCheck n = some r) :
    ∃ k, r = Rec.rdsSnapshotCleanup k := by
  unfold rdsSnapshotCountCheck at h
  split at h
  · exact ⟨_, (Option.some.inj h).symm⟩
  · cases h

theorem rdsEngineCheck_some {inst : DBInstance} {m : InstanceMetrics} {r : Rec}
    (h : rdsEngineCheck inst m = some r) :
    (∃ n, r = Rec.rdsDeadlocks n) ∨ ∃ a, r = Rec.rdsBlockedTransactions a := by
  unfold rdsEngineCheck at h
  split at h
  · cases h
  · split at h
    · split at h
      · exact Or.inl ⟨_, (Option.some.inj h).symm⟩
      · cases h
    · split at h
      · split at h
        · exact Or.inr ⟨_, (Option.some.inj h).symm⟩
        · cases h
      · cases h

theorem rdsBurstCheck_some {m : InstanceMetrics} {r : Rec}
    (h : rdsBurstCheck m = some r) : ∃ b, r = Rec.rdsLargerInstance b := by
  unfold rdsBurstCheck at h
  split at h
  · exact ⟨_, (Option.some.inj h).symm⟩
  · cases h

/-- Membership characterization of the per-instance heuristic battery:
an emitted item is either the upgrade recommendation with its positive
savings and its upgrade-map provenance, or an amount-free item that is
neither an upgrade recommendation nor an instance header, and whose
firing condition held. -/
theorem rdsInstanceItems_mem (p : EC2Pricing) (region : String)
    (inst : DBInstance) (m : InstanceMetrics) (n : Nat) :
    ∀ x ∈ (rdsInstanceItems p region inst m n).2,
    (∃ c t s, x = Rec.rdsUpgrade c t s ∧ inst.dbInstanceClass = some c ∧
      mapFind rdsInstanceUpgrades c = some t ∧
      serviceCalculateInstanceSavings p c t region = .ok s ∧ 0 < s) ∨
    (recAmount x = 0 ∧ x.isRdsUpgrade = false ∧
      (∀ id, x ≠ Rec.rdsInstanceHeader id) ∧
      (∀ a b, x = Rec.rdsDownsize a b →
        m.cpuUtilization < 40 ∧
          m.connectionCount < m.maxConnections * (4 / 10)) ∧
      (∀ a b, x = Rec.rdsReduceStorage a b →
        m.storageUtilization < 50 ∧ 100 < inst.allocatedStorage)) := by
  intro x hx
  unfold rdsInstanceItems at hx
  simp only [List.append_assoc, List.mem_append, Option.mem_toList,
    Option.mem_def] at hx
  rcases hx with hx | hx | hx | hx | hx | hx | hx | hx | hx | hx | hx | hx
  · rcases rdsUpgradeCheck_cases p region inst with hcase | ⟨c, t, s, hc, hf, hs, hpos, hcase⟩
    · rw [hcase] at hx
      cases hx
    · rw [hcase] at hx
      exact Or.inl ⟨c, t, s, (Option.some.inj hx).symm, hc, hf, hs, hpos⟩
  · obtain ⟨hcond, hx'⟩ := rdsDownsizeCheck_some hx
    subst hx'
    exact Or.inr ⟨rfl, rfl, (by intro id h; cases h),
      fun a b _ => hcond, (by intro a b h; cases h)⟩
  · obtain ⟨hcond, hx'⟩ := rdsStorageCheck_some hx
    subst hx'
    exact Or.inr ⟨rfl, rfl, (by intro id h; cases h), (by intro a b h; cases h),
      fun a b _ => hcond⟩
  · obtain ⟨y, hx'⟩ := rdsMemoryCheck_some hx
    subst hx'
    exact Or.inr ⟨rfl, rfl, (by intro id h; cases h), (by intro a b h; cases h),
      (by intro a b h; cases h)⟩
  · obtain ⟨y, hx'⟩ := rdsDiskQueueCheck_some hx
    subst hx'
    exact Or.inr ⟨rfl, rfl, (by intro id h; cases h), (by intro a b h; cases h),
      (by intro a b h; cases h)⟩
  · obtain ⟨y, z, hx'⟩ := rdsLatencyCheck_some hx
    subst hx'
    exact Or.inr ⟨rfl, rfl, (by intro id h; cases h), (by intro a b h; cases h),
      (by intro a b h; cases h)⟩
  · obtain ⟨y, z, hx'⟩ := rdsNetworkCheck_some hx
    subst hx'
    exact Or.inr ⟨rfl, rfl, (by intro id h; cases h), (by intro a b h; cases h),
      (by intro a b h; cases h)⟩
  · rcases rdsMultiAZCheck_some hx with hx' | hx'
    · subst hx'
      exact Or.inr ⟨rfl, rfl, (by intro id h; cases h), (by intro a b h; cases h),
        (by intro a b h; cases h)⟩
    · subst hx'
      exact Or.inr ⟨rfl, rfl, (by intro id h; cases h), (by intro a b h; cases h),
        (by intro a b h; cases h)⟩
  · obtain ⟨y, hx'⟩ := rdsBackupCheck_some hx
    subst hx'
    exact Or.inr ⟨rfl, rfl, (by intro id h; cases h), (by intro a b h; cases h),
      (by intro a b h; cases h)⟩
  · obtain ⟨y, hx'⟩ := rdsSnapshotCountCheck_some hx
    subst hx'
    exact Or.inr ⟨rfl, rfl, (by intro id h; cases h), (by intro a b h; cases h),
      (by intro a b h; cases h)⟩
  · rcases rdsEngineCheck_some hx with ⟨y, hx'⟩ | ⟨y, hx'⟩
    · subst hx'
      exact Or.inr ⟨rfl, rfl, (by intro id h; cases h), (by intro a b h; cases h),
        (by intro a b h; cases h)⟩
    · subst hx'
      exact Or.inr ⟨rfl, rfl, (by intro id h; cases h), (by intro a b h; cases h),
        (by intro a b h; cases h)⟩
  · obtain ⟨y, hx'⟩ := rdsBurstCheck_some hx
    subst hx'
    exact Or.inr ⟨rfl, rfl, (by intro id h; cases h), (by intro a b h; cases h),
      (by intro a b h; cases h)⟩

/-- The amounts carried by a heuristic battery's items sum to its
instanceSavings: only the upgrade check carries an amount. -/
theorem rdsInstanceItems_sum (p : EC2Pricing) (region : String)
    (inst : DBInstance) (m : InstanceMetrics) (n : Nat) :
    (((rdsInstanceItems p region inst m n).2).map recAmount).sum =
      (rdsInstanceItems p region inst m n).1 := by
  have hzero : ∀ (o : Option Rec), (∀ r, o = some r → recAmount r = 0) →
      ((o.toList).map recAmount).sum = 0 := by
    intro o h
    cases o with
    | none => rfl
    | some r => simpa using h r rfl
  have h2 : ((rdsDownsizeCheck m).toList.map recAmount).sum = 0 :=
    hzero _ (fun r h => by obtain ⟨hc, h'⟩ := rdsDownsizeCheck_some h; subst h'; rfl)
  have h3 : ((rdsStorageCheck m inst).toList.map recAmount).sum = 0 :=
    hzero _ (fun r h => by obtain ⟨hc, h'⟩ := rdsStorageCheck_some h; subst h'; rfl)
  have h4 : ((rdsMemoryCheck m).toList.map recAmount).sum = 0 :=
    hzero _ (fun r h => by obtain ⟨y, h'⟩ := rdsMemoryCheck_some h; subst h'; rfl)
  have h5 : ((rdsDiskQueueCheck m).toList.map recAmount).sum = 0 :=
    hzero _ (fun r h => by obtain ⟨y, h'⟩ := rdsDiskQueueCheck_some h; subst h'; rfl)
  have h6 : ((rdsLatencyCheck m).toList.map recAmount).sum = 0 :=
    hzero _ (fun r h => by obtain ⟨y, z, h'⟩ := rdsLatencyCheck_some h; subst h'; rfl)
  have h7 : ((rdsNetworkCheck m).toList.map recAmount).sum = 0 :=
    hzero _ (fun r h => by obtain ⟨y, z, h'⟩ := rdsNetworkCheck_some h; subst h'; rfl)
  have h8 : ((rdsMultiAZCheck m inst).toList.map recAmount).sum = 0 :=
    hzero _ (fun r h => by rcases rdsMultiAZCheck_some h with h' | h' <;> (subst h'; rfl))
  have h9 : ((rdsBackupCheck m).toList.map recAmount).sum = 0 :=
    hzero _ (fun r h => by obtain ⟨y, h'⟩ := rdsBackupCheck_some h; subst h'; rfl)
  have h10 : ((rdsSnapshotCountCheck n).toList.map recAmount).sum = 0 :=
    hzero _ (fun r h => by obtain ⟨y, h'⟩ := rdsSnapshotCountCheck_some h; subst h'; rfl)
  have h11 : ((rdsEngineCheck inst m).toList.map recAmount).sum = 0 :=
    hzero _ (fun r h => by rcases rdsEngineCheck_some h with ⟨y, h'⟩ | ⟨y, h'⟩ <;> (subst h'; rfl))
  have h12 : ((rdsBurstCheck m).toList.map recAmount).sum = 0 :=
    hzero _ (fun r h => by obtain ⟨y, h'⟩ := rdsBurstCheck_some h; subst h'; rfl)
  unfold rdsInstanceItems
  simp only [List.map_append, List.sum_append, h2, h3, h4, h5, h6, h7, h8, h9,
    h10, h11, h12, add_zero]
  rcases rdsUpgradeCheck_cases p region inst with hcase | ⟨c, t, s, _, _, _, _, hcase⟩
  · rw [hcase]
    simp
  · rw [hcase]
    simp [recAmount]

/-! Lemmas about per-instance processing and its sequential collection. -/

theorem processInstance_aurora {env : RDSEnv} {snaps : Option (List DBSnapshot)}
    {inst : DBInstance} (h : isAuroraEngine inst = true) :
    processInstance env snaps inst = some (0, []) := by
  unfold processInstance
  rw [if_pos h]

theorem processInstance_metricsError {env : RDSEnv}
    {snaps : Option (List DBSnapshot)} {inst : DBInstance} {e : String}
    (haur : isAuroraEngine inst = false) (hm : env.metrics inst = .error e) :
    processInstance env snaps inst = some (0, []) := by
  unfold processInstance
  rw [if_neg (by simp [haur])]
  simp only [hm]

theorem processInstance_noSnaps {env : RDSEnv} {inst : DBInstance}
    {m : InstanceMetrics} (haur : isAuroraEngine inst = false)
    (hm : env.metrics inst = .ok m) :
    processInstance env none inst = none := by
  unfold processInstance
  rw [if_neg (by simp [haur])]
  simp only [hm]

theorem processInstance_someSnaps_isSome (env : RDSEnv)
    (snapList : List DBSnapshot) (inst : DBInstance) :
    ∃ c, processInstance env (some snapList) inst = some c := by
  unfold processInstance
  by_cases h : isAuroraEngine inst = true
  · rw [if_pos h]
    exact ⟨_, rfl⟩
  · rw [if_neg h]
    rcases hm : env.metrics inst with e | m
    · exact ⟨_, rfl⟩
    · simp only []
      exact ⟨_, rfl⟩

theorem processInstance_sum {env : RDSEnv} {snaps : Option (List DBSnapshot)}
    {inst : DBInstance} {c : ℚ × List Rec}
    (h : processInstance env snaps inst = some c) :
    (c.2.map recAmount).sum = c.1 := by
  unfold processInstance at h
  by_cases haur : isAuroraEngine inst = true
  · rw [if_pos haur] at h
    cases h
    simp
  · rw [if_neg haur] at h
    rcases hm : env.metrics inst with e | m
    · simp only [hm] at h
      cases h
      simp
    · simp only [hm] at h
      rcases snaps with _ | snapList
      · cases h
      · simp only [] at h
        cases h
        by_cases hb : (rdsInstanceItems env.pricing env.region inst m
            (snapshotCountFor snapList inst.dbInstanceIdentifier)).2 = []
        · rw [if_neg (by simp [hb])]
          have := rdsInstanceItems_sum env.pricing env.region inst m
            (snapshotCountFor snapList inst.dbInstanceIdentifier)
          rw [hb] at this
          simpa using this
        · rw [if_pos hb]
          have := rdsInstanceItems_sum env.pricing env.region inst m
            (snapshotCountFor snapList inst.dbInstanceIdentifier)
          simp [recAmount, this]

theorem processInstance_block_mem {env : RDSEnv}
    {snaps : Option (List DBSnapshot)} {inst : DBInstance} {c : ℚ × List Rec}
    {x : Rec} (h : processInstance env snaps inst = some c) (hx : x ∈ c.2) :
    ∃ m snapList, snaps = some snapList ∧ env.metrics inst = .ok m ∧
      isAuroraEngine inst = false ∧
      (x = Rec.rdsInstanceHeader inst.dbInstanceIdentifier ∨
        x ∈ (rdsInstanceItems env.pricing env.region inst m
          (snapshotCountFor snapList inst.dbInstanceIdentifier)).2) := by
  unfold processInstance at h
  by_cases haur : isAuroraEngine inst = true
  · rw [if_pos haur] at h
    cases h
    simp at hx
  · rw [if_neg haur] at h
    rcases hm : env.metrics inst with e | m
    · simp only [hm] at h
      cases h
      simp at hx
    · simp only [hm] at h
      rcases snaps with _ | snapList
      · cases h
      · simp only [] at h
        cases h
        refine ⟨m, snapList, rfl, rfl, (by simpa using haur), ?_⟩
        by_cases hb : (rdsInstanceItems env.pricing env.region inst m
            (snapshotCountFor snapList inst.dbInstanceIdentifier)).2 = []
        · rw [if_neg (by simp [hb])] at hx
          simp at hx
        · rw [if_pos hb] at hx
          rcases List.mem_cons.1 hx with hx' | hx'
          · exact Or.inl hx'
          · exact Or.inr hx'

theorem collectContribs_mem {env : RDSEnv} {snaps : Option (List DBSnapshot)} :
    ∀ (l : List DBInstance) (res : List (ℚ × List Rec)),
    collectContribs env snaps l = some res →
    ∀ c ∈ res, ∃ inst ∈ l, processInstance env snaps inst = some c := by
  intro l
  induction l with
  | nil =>
    intro res h c hc
    unfold collectContribs at h
    cases h
    simp at hc
  | cons a l ih =>
    intro res h c hc
    unfold collectContribs at h
    rcases hp : processInstance env snaps a with _ | ca
    · simp only [hp] at h
      exact Option.noConfusion h
    · simp only [hp] at h
      rcases hr : collectContribs env snaps l with _ | cs
      · simp only [hr] at h
        exact Option.noConfusion h
      · simp only [hr] at h
        cases h
        rcases List.mem_cons.1 hc with hc' | hc'
        · exact ⟨a, List.mem_cons_self a l, by rw [hp, hc']⟩
        · obtain ⟨inst, hi, hpi⟩ := ih cs hr c hc'
          exact ⟨inst, List.mem_cons_of_mem _ hi, hpi⟩

theorem collectContribs_someSnaps (env : RDSEnv) (snapList : List DBSnapshot) :
    ∀ l, ∃ res, collectContribs env (some snapList) l = some res := by
  intro l
  induction l with
  | nil => exact ⟨[], rfl⟩
  | cons a l ih =>
    obtain ⟨c, hc⟩ := processInstance_someSnaps_isSome env snapList a
    obtain ⟨res, hres⟩ := ih
    refine ⟨c :: res, ?_⟩
    unfold collectContribs
    simp only [hc, hres]

/-- Amount sums distribute over flattening a list of blocks. -/
theorem sum_amount_flatten (L : List (List Rec)) :
    (L.flatten.map recAmount).sum =
      (L.map (fun b => (b.map recAmount).sum)).sum := by
  induction L with
  | nil => rfl
  | cons hd tl ih =>
    simp only [List.flatten_cons, List.map_append, List.sum_append,
      List.map_cons, List.sum_cons, ih]

/-! Lemmas at the level of the three EC2 checks. -/

theorem underutilRecs_mem {order : MapOrder}
    {entries : List (String × String × String × ℚ)} {x : Rec}
    (hord : ∀ m, List.Perm (order m) m)
    (hx : x ∈ underutilRecs order entries) :
    x = Rec.underutilHeader entries.length ∨
      ∃ e ∈ entries, x = Rec.underutilItem e.1 e.2.1 e.2.2.1 e.2.2.2 := by
  unfold underutilRecs at hx
  by_cases h : entries.length > 0
  · rw [if_pos h] at hx
    rcases List.mem_cons.1 hx with hx' | hx'
    · exact Or.inl hx'
    · obtain ⟨e, he, hxe⟩ := List.mem_map.1 hx'
      exact Or.inr ⟨e, (hord entries).mem_iff.1 he, hxe.symm⟩
  · rw [if_neg h] at hx
    cases hx

theorem underutilRecs_sum {order : MapOrder}
    {entries : List (String × String × String × ℚ)}
    (hord : ∀ m, List.Perm (order m) m) :
    ((underutilRecs order entries).map recAmount).sum =
      (entries.map entrySavings).sum := by
  unfold underutilRecs
  by_cases h : entries.length > 0
  · rw [if_pos h]
    have hmm : List.map recAmount
        ((order entries).map (fun e => Rec.underutilItem e.1 e.2.1 e.2.2.1 e.2.2.2)) =
        List.map entrySavings (order entries) := by
      rw [List.map_map]
      rfl
    simp only [List.map_cons, List.sum_cons, hmm]
    have hperm : List.Perm (List.map entrySavings (order entries))
        (List.map entrySavings entries) := (hord entries).map entrySavings
    rw [hperm.sum_eq]
    simp [recAmount]
  · rw [if_neg h]
    have : entries = [] := List.length_eq_zero.1 (Nat.eq_zero_of_not_pos h)
    subst this
    rfl

theorem analyzeUnderutilized_sum {env : EC2Env} {order : MapOrder}
    {s : ℚ} {recs : List Rec} (hord : ∀ m, List.Perm (order m) m)
    (hnod : ∀ rss, env.runningInstances = .ok rss →
      (rss.flatten.map EC2Instance.instanceId).Nodup)
    (h : analyzeUnderutilizedInstances env order = .ok (s, recs)) :
    s = (recs.map recAmount).sum := by
  unfold analyzeUnderutilizedInstances analyzeUnderutilizedInstancesCore at h
  rcases hr : env.runningInstances with e | rss
  · rw [hr] at h
    exact Except.noConfusion h
  · rw [hr] at h
    simp only [Except.map] at h
    injection h with h'
    injection h' with hs hrecs
    subst hs
    subst hrecs
    have hsum := underutil_foldl_sum env.pricing env.region rss.flatten 0 []
      (hnod rss hr) (by intro k hk; cases hk) (by simp)
    rw [underutilRecs_sum hord]
    exact hsum

theorem analyzeUnderutilized_mem {env : EC2Env} {order : MapOrder}
    {s : ℚ} {recs : List Rec} {x : Rec} (hord : ∀ m, List.Perm (order m) m)
    (h : analyzeUnderutilizedInstances env order = .ok (s, recs))
    (hx : x ∈ recs) :
    (∃ n, x = Rec.underutilHeader n) ∨
      ∃ rss, env.runningInstances = .ok rss ∧
        ∃ inst ∈ rss.flatten, ∃ tgt sv,
          x = Rec.underutilItem inst.instanceId inst.instanceType tgt sv ∧
          mapFind instanceUpgrades inst.instanceType = some tgt ∧
          serviceCalculateInstanceSavings env.pricing inst.instanceType tgt
            env.region = .ok sv ∧ 0 < sv := by
  unfold analyzeUnderutilizedInstances analyzeUnderutilizedInstancesCore at h
  rcases hr : env.runningInstances with e | rss
  · rw [hr] at h
    exact Except.noConfusion h
  · rw [hr] at h
    simp only [Except.map] at h
    injection h with h'
    injection h' with hs hrecs
    subst hs
    subst hrecs
    rcases underutilRecs_mem hord hx with hx' | ⟨e, he, hxe⟩
    · exact Or.inl ⟨_, hx'⟩
    · rcases underutil_foldl_mem env.pricing env.region rss.flatten (0, []) e he with
        hnil | ⟨inst, hmem, hid, hty, hfind, hcalc, hpos⟩
      · cases hnil
      · refine Or.inr ⟨rss, rfl, inst, hmem, e.2.2.1, e.2.2.2, ?_, ?_, ?_, hpos⟩
        · rw [hxe, hid, hty]
        · rw [hty]; exact hfind
        · rw [hty]; exact hcalc

theorem analyzeStopped_sum {env : EC2Env} {s : ℚ} {recs : List Rec}
    (h : analyzeStoppedInstances env = .ok (s, recs)) :
    s = (recs.map recAmount).sum := by
  unfold analyzeStoppedInstances at h
  rcases hr : env.stoppedInstances with e | rss
  · rw [hr] at h
    exact Except.noConfusion h
  · rw [hr] at h
    simp only [] at h
    injection h with h'
    injection h' with hs hrecs
    subst hs
    subst hrecs
    have hsum := stopped_foldl_sum env rss.flatten ([], 0, []) (by simp)
    by_cases hlen : (rss.flatten.foldl (stoppedStep env) ([], 0, [])).1.length > 0
    · simp only [if_pos hlen]
      simp only [List.map_cons, List.map_append, List.sum_cons, List.sum_append]
      simp [recAmount, hsum]
    · have hnil : (rss.flatten.foldl (stoppedStep env) ([], 0, [])).1 = [] := by
        rcases hq : (rss.flatten.foldl (stoppedStep env) ([], 0, [])).1 with _ | ⟨a, t⟩
        · rfl
        · exfalso
          apply hlen
          rw [hq]
          simp
      have hfix := stopped_foldl_ids_nil env rss.flatten ([], 0, []) hnil
      simp only [if_neg hlen]
      rw [hfix]
      rfl

theorem analyzeStopped_mem {env : EC2Env} {s : ℚ} {recs : List Rec} {x : Rec}
    (h : analyzeStoppedInstances env = .ok (s, recs)) (hx : x ∈ recs) :
    (∃ n, x = Rec.stoppedHeader n) ∨ (∃ t, x = Rec.stoppedTotal t) ∨
    x = Rec.adviceConsider ∨ x = Rec.adviceTerminate ∨
    x = Rec.adviceSnapshotFirst ∨ x = Rec.adviceAutomate ∨
    x = Rec.adviceRecreate ∨
    ∃ id t sz c, x = Rec.stoppedVolumeItem id t sz c ∧
      ∃ pr, getVolumePrice env.pricing t env.region = .ok pr ∧
        c = pr * (sz : ℚ) := by
  unfold analyzeStoppedInstances at h
  rcases hr : env.stoppedInstances with e | rss
  · rw [hr] at h
    exact Except.noConfusion h
  · rw [hr] at h
    simp only [] at h
    injection h with h'
    injection h' with hs hrecs
    subst hs
    subst hrecs
    by_cases hlen : (rss.flatten.foldl (stoppedStep env) ([], 0, [])).1.length > 0
    · rw [if_pos hlen] at hx
      rcases List.mem_cons.1 hx with hx' | hx'
      · exact Or.inl ⟨_, hx'⟩
      · rcases List.mem_append.1 hx' with hx'' | hx''
        · rcases stopped_foldl_mem env rss.flatten ([], 0, []) x hx'' with hnil | hvol
          · cases hnil
          · exact Or.inr (Or.inr (Or.inr (Or.inr (Or.inr (Or.inr (Or.inr hvol))))))
        · simp only [List.mem_cons, List.mem_singleton] at hx''
          rcases hx'' with hx3 | hx3 | hx3 | hx3 | hx3 | hx3 | hx3
          · exact Or.inr (Or.inl ⟨_, hx3⟩)
          · exact Or.inr (Or.inr (Or.inl hx3))
          · exact Or.inr (Or.inr (Or.inr (Or.inl hx3)))
          · exact Or.inr (Or.inr (Or.inr (Or.inr (Or.inl hx3))))
          · exact Or.inr (Or.inr (Or.inr (Or.inr (Or.inr (Or.inl hx3)))))
          · exact Or.inr (Or.inr (Or.inr (Or.inr (Or.inr (Or.inr (Or.inl hx3))))))
          · cases hx3
    · rw [if_neg hlen] at hx
      cases hx

theorem analyzeUnattached_sum (env : EC2Env) (vols : List EBSVolume) :
    (analyzeUnattachedVolumes env vols).1 =
      ((analyzeUnattachedVolumes env vols).2.map recAmount).sum := by
  unfold analyzeUnattachedVolumes
  exact unattached_foldl_sum env.pricing env.region vols 0 [] (by simp)

theorem analyzeUnattached_mem {env : EC2Env} {vols : List EBSVolume} {x : Rec}
    (hx : x ∈ (analyzeUnattachedVolumes env vols).2) :
    (∃ vid reg, x = Rec.unattachedNoPricing vid reg) ∨
      ∃ t vid sz c, x = Rec.unattachedItem t vid sz c ∧
        ∃ pr, getVolumePrice env.pricing t env.region = .ok pr ∧
          c = pr * (sz : ℚ) * 24 * 30 := by
  unfold analyzeUnattachedVolumes at hx
  rcases unattached_foldl_mem env.pricing env.region vols (0, []) x hx with
    hnil | hrest
  · cases hnil
  · exact hrest

/-! Decomposition of EC2Blade.Execute. -/

theorem checkOrElse_ok {x : Except String (ℚ × List Rec)} {r : ℚ × List Rec}
    (h : x = .ok r) : checkOrElse x = r := by
  rw [h]
  rfl

theorem checkOrElse_error {x : Except String (ℚ × List Rec)} {e : String}
    (h : x = .error e) : checkOrElse x = (0, []) := by
  rw [h]
  rfl

theorem mem_checkOrElse {x : Except String (ℚ × List Rec)} {r : Rec}
    (h : r ∈ (checkOrElse x).2) : ∃ p, x = .ok p ∧ r ∈ p.2 := by
  cases x with
  | error e => simp [checkOrElse] at h
  | ok p => exact ⟨p, rfl, h⟩

theorem ec2Execute_ok_eq {env : EC2Env} {order : MapOrder}
    {vols : List EBSVolume} (hv : env.allVolumes = .ok vols) :
    ec2Execute env order = .ok
      { cloudProvider := "aws", category := "compute", resourceType := "EC2",
        potentialSavings :=
          (checkOrElse (analyzeUnderutilizedInstances env order)).1 +
          (checkOrElse (analyzeStoppedInstances env)).1 +
          (analyzeUnattachedVolumes env vols).1,
        recommendations :=
          (checkOrElse (analyzeUnderutilizedInstances env order)).2 ++
          (checkOrElse (analyzeStoppedInstances env)).2 ++
          (analyzeUnattachedVolumes env vols).2,
        details := [] } := by
  unfold ec2Execute
  simp only [hv]

theorem ec2Execute_error_eq {env : EC2Env} {order : MapOrder} {e : String}
    (hv : env.allVolumes = .error e) :
    ec2Execute env order = .error ("failed to describe volumes: " ++ e) := by
  unfold ec2Execute
  simp only [hv]

/-- Reserved-coverage comparison on a division by zero total instances:
the resulting value is NaN or positive infinity and the strict comparison
with 80 is false either way. -/
theorem covLt_false (k : ℕ) :
    goLt (goMul (goDiv (GoFloat.finite (k : ℚ)) (GoFloat.finite 0))
      (GoFloat.finite 100)) (GoFloat.finite 80) = false := by
  rcases Nat.eq_zero_or_pos k with hk | hk
  · subst hk
    simp [goDiv, goMul, goLt]
  · have h0 : (0 : ℚ) < (k : ℚ) := by exact_mod_cast hk
    simp [goDiv, goMul, goLt, h0, not_lt.2 (le_of_lt h0)]

/-- C9: when the snapshot listing fails while the DB-instance listing
succeeds and a non-Aurora instance's metrics load, RDSBlade.Execute
dereferences the nil DescribeDBSnapshots output in the snapshot-count
loop: the run panics instead of skipping the heuristic, evaluated here at
a concrete failing input. -/
theorem c9_snapshot_nil_deref :
    c9Env.dbSnapshots = Except.error "snapshot listing failed" ∧
    c9Env.dbInstances = Except.ok [⟨"db-1", some "mysql", none, 10, none⟩] ∧
    rdsExecute c9Env = RDSOutcome.panicked :=
  ⟨rfl, rfl, rfl⟩

/-- C10: with an empty DB-instance inventory and a successful
reserved-capacity listing, the coverage computation divides the active
reservation count by zero total instances (recorded as such in the result
details), and no coverage recommendation is emitted: the comparison with
80 never fires on the NaN or infinite result. -/
theorem c10_coverage_div_zero :
    ∀ (env : RDSEnv) (rs : List ReservedDBInstance),
    env.dbInstances = .ok [] → env.reservedDBInstances = .ok rs →
    rdsExecute env = RDSOutcome.ok
      { cloudProvider := "aws", category := "database", resourceType := "RDS",
        potentialSavings := 0,
        recommendations := [],
        details := [("Reserved Instance Coverage",
          goMul (goDiv (GoFloat.finite
            (((rs.filter (fun ri => ri.state = some "active")).length : ℚ)))
            (GoFloat.finite 0)) (GoFloat.finite 100)),
          ("Total Monthly Savings", GoFloat.finite 0)] } := by
  intro env rs hdb hres
  unfold rdsExecute
  rcases hsnap : env.dbSnapshots with es | snl <;>
    simp only [hdb, hsnap, hres, collectContribs, List.map_nil, List.sum_nil,
      List.flatten, covLt_false, Bool.false_eq_true, if_false, Nat.cast_zero,
      List.length_nil, List.flatten_nil]
  all_goals rfl

/-- C10 witness: the theorem applied to a concrete environment with one
active reservation and an empty inventory. -/
theorem c10_witness :
    rdsExecute c10Env = RDSOutcome.ok
      { cloudProvider := "aws", category := "database", resourceType := "RDS",
        potentialSavings := 0,
        recommendations := [],
        details := [("Reserved Instance Coverage",
          goMul (goDiv (GoFloat.finite 1) (GoFloat.finite 0))
            (GoFloat.finite 100)),
          ("Total Monthly Savings", GoFloat.finite 0)] } := by
  have h := c10_coverage_div_zero c10Env [⟨some "active"⟩] rfl rfl
  simpa using h

/-- C7: in the RDS heuristic battery, CPU utilization of exactly 40 never
produces the downsizing suggestion and storage utilization of exactly 50
never produces the storage-reduction suggestion; both comparisons are
strict. -/
theorem c7_boundary_strict :
    ∀ (p : EC2Pricing) (region : String) (inst : DBInstance)
      (m : InstanceMetrics) (n : Nat),
    (m.cpuUtilization = 40 →
      ∀ a b, Rec.rdsDownsize a b ∉ (rdsInstanceItems p region inst m n).2) ∧
    (m.storageUtilization = 50 →
      ∀ a b, Rec.rdsReduceStorage a b ∉ (rdsInstanceItems p region inst m n).2) := by
  intro p region inst m n
  constructor
  · intro hcpu a b hmem
    rcases rdsInstanceItems_mem p region inst m n _ hmem with
      ⟨c, t, s, hx, _⟩ | ⟨_, _, _, hdown, _⟩
    · cases hx
    · have := (hdown a b rfl).1
      rw [hcpu] at this
      exact absurd this (lt_irrefl _)
  · intro hsto a b hmem
    rcases rdsInstanceItems_mem p region inst m n _ hmem with
      ⟨c, t, s, hx, _⟩ | ⟨_, _, _, _, hred⟩
    · cases hx
    · have := (hred a b rfl).1
      rw [hsto] at this
      exact absurd this (lt_irrefl _)

/-- C7 witness: the theorem applied at metrics sitting exactly on both
thresholds. -/
theorem c7_witness :
    Rec.rdsDownsize 40 0 ∉
      (rdsInstanceItems samplePricing "us-east-1" c6DbInstance mBoundary 0).2 ∧
    Rec.rdsReduceStorage 10 50 ∉
      (rdsInstanceItems samplePricing "us-east-1" c6DbInstance mBoundary 0).2 :=
  ⟨(c7_boundary_strict samplePricing "us-east-1" c6DbInstance mBoundary 0).1
      rfl 40 0,
   (c7_boundary_strict samplePricing "us-east-1" c6DbInstance mBoundary 0).2
      rfl 10 50⟩

/-- C2: every unattached-volume recommendation reports a monthly cost of
price times size times 24 times 30, while every stopped-instance attached
volume line reports price times size: the two code paths use different
multipliers. -/
theorem c2_cost_formulas :
    (∀ (env : EC2Env) (vols : List EBSVolume) (t vid : String) (sz : ℤ) (c : ℚ),
      Rec.unattachedItem t vid sz c ∈ (analyzeUnattachedVolumes env vols).2 →
      ∃ p, getVolumePrice env.pricing t env.region = .ok p ∧
        c = p * (sz : ℚ) * 24 * 30) ∧
    (∀ (env : EC2Env) (s : ℚ) (recs : List Rec) (id t : String) (sz : ℤ) (c : ℚ),
      analyzeStoppedInstances env = .ok (s, recs) →
      Rec.stoppedVolumeItem id t sz c ∈ recs →
      ∃ p, getVolumePrice env.pricing t env.region = .ok p ∧
        c = p * (sz : ℚ)) := by
  constructor
  · intro env vols t vid sz c hmem
    rcases analyzeUnattached_mem hmem with ⟨vid', reg', hx⟩ |
      ⟨t', vid', sz', c', hx, pr, hpr, hc⟩
    · cases hx
    · injection hx with h1 h2 h3 h4
      subst h1
      subst h3
      subst h4
      exact ⟨pr, hpr, hc⟩
  · intro env s recs id t sz c hok hmem
    rcases analyzeStopped_mem hok hmem with ⟨n, hx⟩ | ⟨tt, hx⟩ | hx | hx | hx |
      hx | hx | ⟨id', t', sz', c', hx, pr, hpr, hc⟩
    · cases hx
    · cases hx
    · cases hx
    · cases hx
    · cases hx
    · cases hx
    · cases hx
    · injection hx with h1 h2 h3 h4
      subst h2
      subst h3
      subst h4
      exact ⟨pr, hpr, hc⟩

/-- C2 witness: the theorem applied to a concrete environment with one
unattached 100 GB gp2 volume (monthly cost 144000 under the
hours-inflated formula) and one stopped instance with an attached 50 GB
gp2 volume (monthly cost 100). -/
theorem c2_witness :
    (Rec.unattachedItem "gp2" "vol-u" 100 144000 ∈
      (analyzeUnattachedVolumes c2WEnv [⟨"vol-u", "gp2", 100, "available"⟩]).2 ∧
      ∃ p, getVolumePrice c2WEnv.pricing "gp2" c2WEnv.region = .ok p ∧
        (144000 : ℚ) = p * (100 : ℚ) * 24 * 30) ∧
    (analyzeStoppedInstances c2WEnv = .ok (100,
        [Rec.stoppedHeader 1, Rec.stoppedVolumeItem "i-s" "gp2" 50 100,
         Rec.stoppedTotal 100, Rec.adviceConsider, Rec.adviceTerminate,
         Rec.adviceSnapshotFirst, Rec.adviceAutomate, Rec.adviceRecreate]) ∧
      ∃ p, getVolumePrice c2WEnv.pricing "gp2" c2WEnv.region = .ok p ∧
        (100 : ℚ) = p * (50 : ℚ)) := by
  have e1 : (2 : ℚ) * 100 * 24 * 30 = 144000 := by norm_num
  have e2 : (2 : ℚ) * 50 = 100 := by norm_num
  have hu : Rec.unattachedItem "gp2" "vol-u" 100 144000 ∈
      (analyzeUnattachedVolumes c2WEnv [⟨"vol-u", "gp2", 100, "available"⟩]).2 := by
    simp [analyzeUnattachedVolumes, unattachedStep, getVolumePrice,
      isRegionSupported, mapFind, samplePricing, c2WEnv, e1]
  have hs : analyzeStoppedInstances c2WEnv = .ok (100,
      [Rec.stoppedHeader 1, Rec.stoppedVolumeItem "i-s" "gp2" 50 100,
       Rec.stoppedTotal 100, Rec.adviceConsider, Rec.adviceTerminate,
       Rec.adviceSnapshotFirst, Rec.adviceAutomate, Rec.adviceRecreate]) := by
    simp [analyzeStoppedInstances, stoppedStep, stoppedVolumeStep,
      getVolumePrice, isRegionSupported, mapFind, samplePricing, c2WEnv, e2]
  constructor
  · exact ⟨hu, c2_cost_formulas.1 c2WEnv [⟨"vol-u", "gp2", 100, "available"⟩]
      "gp2" "vol-u" 100 144000 hu⟩
  · exact ⟨hs, c2_cost_formulas.2 c2WEnv 100 _ "i-s" "gp2" 50 100 hs (by simp)⟩

/-- C3 counterexample: an instance-listing failure is not fatal to the
compute analyzer. The running-instances listing fails, yet Execute
returns a result (with the underutilized check skipped) instead of an
error, contradicting the claim that an instance-listing failure aborts
Execute. -/
theorem c3_counterexample :
    c3CexEnv.runningInstances = Except.error "instance listing failed" ∧
    ec2Execute c3CexEnv (fun l => l) = Except.ok
      { cloudProvider := "aws", category := "compute", resourceType := "EC2",
        potentialSavings := 0, recommendations := [], details := [] } := by
  refine ⟨rfl, ?_⟩
  norm_num [ec2Execute, checkOrElse, analyzeUnderutilizedInstances,
    analyzeUnderutilizedInstancesCore, analyzeStoppedInstances,
    analyzeUnattachedVolumes, underutilRecs, c3CexEnv, Except.map]

theorem ec2Execute_error_iff (env : EC2Env) (order : MapOrder) :
    (∃ e, ec2Execute env order = .error e) ↔ ∃ e, env.allVolumes = .error e := by
  constructor
  · rintro ⟨e, he⟩
    rcases hv : env.allVolumes with e' | vols
    · exact ⟨e', rfl⟩
    · rw [ec2Execute_ok_eq hv] at he
      exact Except.noConfusion he
  · rintro ⟨e, he⟩
    exact ⟨_, ec2Execute_error_eq he⟩

theorem rdsExecute_err_iff (env : RDSEnv) :
    (∃ e, rdsExecute env = .err e) ↔ ∃ e, env.dbInstances = .error e := by
  constructor
  · rintro ⟨e, he⟩
    rcases hdb : env.dbInstances with e' | instances
    · exact ⟨e', rfl⟩
    · exfalso
      unfold rdsExecute at he
      rcases hsnap : env.dbSnapshots with es | snl <;>
        simp only [hdb, hsnap] at he
      · rcases hcol2 : collectContribs env none instances with _ | cb <;>
          simp only [hcol2] at he <;> exact RDSOutcome.noConfusion he
      · rcases hcol2 : collectContribs env (some snl) instances with _ | cb <;>
          simp only [hcol2] at he <;> exact RDSOutcome.noConfusion he
  · rintro ⟨e, he⟩
    refine ⟨"failed to describe DB instances: " ++ e, ?_⟩
    unfold rdsExecute
    simp only [he]

theorem rdsExecute_ok_of_ok_listings (env : RDSEnv)
    (instances : List DBInstance) (snaps : List DBSnapshot)
    (hdb : env.dbInstances = .ok instances)
    (hsnap : env.dbSnapshots = .ok snaps) :
    ∃ r, rdsExecute env = .ok r := by
  obtain ⟨res, hres⟩ := collectContribs_someSnaps env snaps instances
  unfold rdsExecute
  simp only [hdb, hsnap, hres]
  exact ⟨_, rfl⟩

/-- Decomposition of a successful RDS run: the listed instances, their
collected contributions, the savings total and the recommendation list as
instance blocks followed by an optional coverage line. -/
theorem rdsExecute_ok_parts {env : RDSEnv} {r : BladeResult}
    (hok : rdsExecute env = RDSOutcome.ok r) :
    ∃ (instances : List DBInstance) (contribs : List (ℚ × List Rec))
      (so : Option (List DBSnapshot)),
      env.dbInstances = .ok instances ∧
      collectContribs env so instances = some contribs ∧
      r.potentialSavings = (contribs.map Prod.fst).sum ∧
      ∃ covRecs : List Rec,
        r.recommendations = (contribs.map Prod.snd).flatten ++ covRecs ∧
        (covRecs = [] ∨ ∃ g, covRecs = [Rec.rdsCoverage g]) := by
  unfold rdsExecute at hok
  rcases hdb : env.dbInstances with e | instances
  · simp only [hdb] at hok
    exact RDSOutcome.noConfusion hok
  · simp only [hdb] at hok
    rcases hsnap : env.dbSnapshots with es | snl <;> simp only [hsnap] at hok
    · rcases hcol : collectContribs env none instances with _ | contribs
      · simp only [hcol] at hok
        exact RDSOutcome.noConfusion hok
      · simp only [hcol] at hok
        rcases hres : env.reservedDBInstances with er | rs <;>
          simp only [hres] at hok
        · injection hok with h'
          subst h'
          exact ⟨instances, contribs, none, rfl, hcol, rfl, [], by simp,
            Or.inl rfl⟩
        · injection hok with h'
          subst h'
          refine ⟨instances, contribs, none, rfl, hcol, rfl, _, rfl, ?_⟩
          by_cases hg : goLt (goMul (goDiv (GoFloat.finite
              (((rs.filter (fun ri => ri.state = some "active")).length : ℚ)))
              (GoFloat.finite (instances.length : ℚ))) (GoFloat.finite 100))
              (GoFloat.finite 80) = true
          · rw [if_pos hg]
            exact Or.inr ⟨_, rfl⟩
          · rw [if_neg hg]
            exact Or.inl rfl
    · rcases hcol : collectContribs env (some snl) instances with _ | contribs
      · simp only [hcol] at hok
        exact RDSOutcome.noConfusion hok
      · simp only [hcol] at hok
        rcases hres : env.reservedDBInstances with er | rs <;>
          simp only [hres] at hok
        · injection hok with h'
          subst h'
          exact ⟨instances, contribs, some snl, rfl, hcol, rfl, [], by simp,
            Or.inl rfl⟩
        · injection hok with h'
          subst h'
          refine ⟨instances, contribs, some snl, rfl, hcol, rfl, _, rfl, ?_⟩
          by_cases hg : goLt (goMul (goDiv (GoFloat.finite
              (((rs.filter (fun ri => ri.state = some "active")).length : ℚ)))
              (GoFloat.finite (instances.length : ℚ))) (GoFloat.finite 100))
              (GoFloat.finite 80) = true
          · rw [if_pos hg]
            exact Or.inr ⟨_, rfl⟩
          · rw [if_neg hg]
            exact Or.inl rfl

/-- C3 as amended: the compute analyzer's Execute returns an error exactly
when the top-level volume listing fails (instance-listing failures inside
the checks are logged and the check skipped); the database analyzer's
Execute returns an error exactly when the DB-instance listing fails; and
when the DB-instance and snapshot listings succeed, Execute returns a
result regardless of pricing, metric or reserved-capacity failures. -/
theorem c3_amended :
    (∀ (env : EC2Env) (order : MapOrder),
      (∃ e, ec2Execute env order = .error e) ↔
        ∃ e, env.allVolumes = .error e) ∧
    (∀ env : RDSEnv,
      (∃ e, rdsExecute env = .err e) ↔ ∃ e, env.dbInstances = .error e) ∧
    (∀ (env : RDSEnv) (instances : List DBInstance) (snaps : List DBSnapshot),
      env.dbInstances = .ok instances → env.dbSnapshots = .ok snaps →
      ∃ r, rdsExecute env = .ok r) :=
  ⟨ec2Execute_error_iff, rdsExecute_err_iff, rdsExecute_ok_of_ok_listings⟩

/-- C3 witness: the amended theorem's inventory-success conjunct applied
to a concrete environment whose reserved-capacity listing fails. -/
theorem c3_witness : ∃ r, rdsExecute c3WREnv = RDSOutcome.ok r :=
  c3_amended.2.2 c3WREnv [] [] rfl rfl

/-- C1 counterexample: with duplicated running-instance ids the savings
total double-counts what the single emitted upgrade line carries
(2880 against 1440), and a stopped instance's zero-sized volume is reported
as a recommendation carrying a computed amount of exactly 0 — so
PotentialSavings is not the sum of the recommendation amounts and a
non-positive delta is reported. -/
theorem c1_counterexample :
    ec2Execute c1CexEnv (fun l => l) = Except.ok c1CexResult ∧
    c1CexResult.potentialSavings = 2880 ∧
    (c1CexResult.recommendations.map recAmount).sum = 1440 ∧
    (2880 : ℚ) ≠ 1440 ∧
    Rec.stoppedVolumeItem "i-stop" "gp2" 0 0 ∈ c1CexResult.recommendations ∧
    recCarriesAmount (Rec.stoppedVolumeItem "i-stop" "gp2" 0 0) = true ∧
    recAmount (Rec.stoppedVolumeItem "i-stop" "gp2" 0 0) = 0 := by
  have e1 : ((3 : ℚ) - 1) * 720 = 1440 := by norm_num
  have e2 : (0 : ℚ) < 1440 := by norm_num
  have e3 : (1440 : ℚ) + 1440 = 2880 := by norm_num
  have e4 : (2 : ℚ) * 0 = 0 := by norm_num
  refine ⟨?_, rfl, ?_, by norm_num, by simp [c1CexResult], rfl, rfl⟩
  · simp [ec2Execute, checkOrElse, analyzeUnderutilizedInstances,
      analyzeUnderutilizedInstancesCore, underutilStep, underutilRecs,
      mapInsert, mapFind, instanceUpgrades, serviceCalculateInstanceSavings,
      calculateInstanceSavingsTable, analyzeStoppedInstances, stoppedStep,
      stoppedVolumeStep, analyzeUnattachedVolumes, getVolumePrice,
      isRegionSupported, c1CexEnv, samplePricing, Except.map, c1CexResult,
      e1, e2, e3, e4]
  · norm_num [c1CexResult, recAmount]

/-- C1 as amended: when the listed instance ids are distinct,
PotentialSavings equals the sum of the amounts carried by the emitted
recommendations, and every amount from the two upgrade checks is strictly
positive; the stopped-instance and unattached-volume checks, however,
report each priced volume's computed monthly cost even when it is zero or
negative (no positivity guard), and duplicated instance ids double-count
upgrade savings against a single emitted line. -/
theorem c1_amended :
    (∀ (env : EC2Env) (order : MapOrder), (∀ m, List.Perm (order m) m) →
      (∀ rss, env.runningInstances = .ok rss →
        (rss.flatten.map EC2Instance.instanceId).Nodup) →
      ∀ r, ec2Execute env order = .ok r →
        r.potentialSavings = (r.recommendations.map recAmount).sum ∧
        ∀ x ∈ r.recommendations, x.isUnderutilItem = true → 0 < recAmount x) ∧
    (∀ (env : RDSEnv) (r : BladeResult), rdsExecute env = .ok r →
      r.potentialSavings = (r.recommendations.map recAmount).sum ∧
      ∀ x ∈ r.recommendations, x.isRdsUpgrade = true → 0 < recAmount x) := by
  constructor
  · intro env order hord hnod r hok
    rcases hv : env.allVolumes with e | vols
    · rw [ec2Execute_error_eq hv] at hok
      exact Except.noConfusion hok
    · rw [ec2Execute_ok_eq hv] at hok
      injection hok with h'
      subst h'
      constructor
      · have hu : (checkOrElse (analyzeUnderutilizedInstances env order)).1 =
            ((checkOrElse (analyzeUnderutilizedInstances env order)).2.map
              recAmount).sum := by
          rcases ha : analyzeUnderutilizedInstances env order with e | u
          · simp [checkOrElse]
          · obtain ⟨us, urecs⟩ := u
            simp only [checkOrElse]
            exact analyzeUnderutilized_sum hord hnod ha
        have hst : (checkOrElse (analyzeStoppedInstances env)).1 =
            ((checkOrElse (analyzeStoppedInstances env)).2.map recAmount).sum := by
          rcases ha : analyzeStoppedInstances env with e | u
          · simp [checkOrElse]
          · obtain ⟨us, urecs⟩ := u
            simp only [checkOrElse]
            exact analyzeStopped_sum ha
        have hun := analyzeUnattached_sum env vols
        simp only [List.map_append, List.sum_append]
        rw [hu, hst, hun]
      · intro x hx hitem
        simp only [List.append_assoc, List.mem_append] at hx
        rcases hx with hx | hx | hx
        · obtain ⟨⟨us, urecs⟩, ha, hmem⟩ := mem_checkOrElse hx
          rcases analyzeUnderutilized_mem hord ha hmem with ⟨n, hxh⟩ |
            ⟨rss, hrr, inst, hmemi, tgt, sv, hxe, hfind, hcalc, hpos⟩
          · subst hxh
            simp [Rec.isUnderutilItem] at hitem
          · subst hxe
            simpa [recAmount] using hpos
        · obtain ⟨⟨us, urecs⟩, ha, hmem⟩ := mem_checkOrElse hx
          rcases analyzeStopped_mem ha hmem with ⟨n, hxh⟩ | ⟨t, hxh⟩ | hxh |
            hxh | hxh | hxh | hxh | ⟨id, t, sz, c, hxh, _⟩
          all_goals subst hxh
          all_goals simp [Rec.isUnderutilItem] at hitem
        · rcases analyzeUnattached_mem hx with ⟨vid, reg, hxh⟩ |
            ⟨t, vid, sz, c, hxh, _⟩
          all_goals subst hxh
          all_goals simp [Rec.isUnderutilItem] at hitem
  · intro env r hok
    obtain ⟨instances, contribs, so, hdb, hcol, hsav, covRecs, hrecs, hcov⟩ :=
      rdsExecute_ok_parts hok
    constructor
    · rw [hsav, hrecs, List.map_append, List.sum_append]
      have hcov0 : (covRecs.map recAmount).sum = 0 := by
        rcases hcov with h | ⟨g, h⟩ <;> subst h <;> simp [recAmount]
      rw [hcov0, add_zero, sum_amount_flatten, List.map_map]
      have hpt : ∀ c ∈ contribs,
          ((fun b => (List.map recAmount b).sum) ∘ Prod.snd) c = Prod.fst c := by
        intro c hc
        obtain ⟨inst, hi, hpi⟩ := collectContribs_mem instances contribs hcol c hc
        exact processInstance_sum hpi
      rw [List.map_congr_left hpt]
    · intro x hx hitem
      rw [hrecs] at hx
      rcases List.mem_append.1 hx with hx | hx
      · rw [List.mem_flatten] at hx
        obtain ⟨b, hb, hxb⟩ := hx
        obtain ⟨c, hc, hbc⟩ := List.mem_map.1 hb
        subst hbc
        obtain ⟨inst, hi, hpi⟩ := collectContribs_mem instances contribs hcol c hc
        rcases processInstance_block_mem hpi hxb with
          ⟨m, snapList, hso, hm, haur, hhead | hitems⟩
        · subst hhead
          simp [Rec.isRdsUpgrade] at hitem
        · rcases rdsInstanceItems_mem env.pricing env.region inst m
            (snapshotCountFor snapList inst.dbInstanceIdentifier) x hitems with
            ⟨cc, tt, ss, hxe, _, _, _, hpos⟩ | ⟨_, hnotup, _, _, _⟩
          · subst hxe
            simpa [recAmount] using hpos
          · rw [hitem] at hnotup
            exact Bool.noConfusion hnotup
      · rcases hcov with h | ⟨g, h⟩ <;> subst h
        · cases hx
        · simp only [List.mem_singleton] at hx
          subst hx
          simp [Rec.isRdsUpgrade] at hitem

/-- C1 witness: the amended theorem applied to a concrete run with one
flagged instance; the savings total 1440 equals the single carried
amount. -/
theorem c1_witness :
    ec2Execute c1WEnv (fun l => l) = Except.ok
      { cloudProvider := "aws", category := "compute", resourceType := "EC2",
        potentialSavings := 1440,
        recommendations := [Rec.underutilHeader 1,
          Rec.underutilItem "i-1" "t2.micro" "t3.micro" 1440],
        details := [] } ∧
    (1440 : ℚ) =
      (([Rec.underutilHeader 1,
        Rec.underutilItem "i-1" "t2.micro" "t3.micro" 1440] : List Rec).map
          recAmount).sum := by
  have e1 : ((3 : ℚ) - 1) * 720 = 1440 := by norm_num
  have e2 : (0 : ℚ) < 1440 := by norm_num
  have hok : ec2Execute c1WEnv (fun l => l) = Except.ok
      { cloudProvider := "aws", category := "compute", resourceType := "EC2",
        potentialSavings := 1440,
        recommendations := [Rec.underutilHeader 1,
          Rec.underutilItem "i-1" "t2.micro" "t3.micro" 1440],
        details := [] } := by
    simp [ec2Execute, checkOrElse, analyzeUnderutilizedInstances,
      analyzeUnderutilizedInstancesCore, underutilStep, underutilRecs,
      mapInsert, mapFind, instanceUpgrades, serviceCalculateInstanceSavings,
      calculateInstanceSavingsTable, analyzeStoppedInstances,
      analyzeUnattachedVolumes, c1WEnv, samplePricing, Except.map, e1, e2]
  refine ⟨hok, ?_⟩
  have h := (c1_amended.1 c1WEnv (fun l => l) (fun m => List.Perm.refl m)
    (by intro rss hr; injection hr with hr'; subst hr'; simp) _ hok).1
  simpa using h

/-- C4 counterexample: the per-instance lines of the underutilized check
are emitted by ranging over a Go map, whose iteration order is
unspecified; two runs against identical collaborator responses, differing
only in that runtime order, produce differently ordered recommendation
lists. -/
theorem c4_counterexample :
    ec2Execute c4Env (fun l => l) = Except.ok
      { cloudProvider := "aws", category := "compute", resourceType := "EC2",
        potentialSavings := 3600,
        recommendations := [Rec.underutilHeader 2,
          Rec.underutilItem "i-a" "t2.micro" "t3.micro" 1440,
          Rec.underutilItem "i-b" "t2.small" "t3.small" 2160],
        details := [] } ∧
    ec2Execute c4Env List.reverse = Except.ok
      { cloudProvider := "aws", category := "compute", resourceType := "EC2",
        potentialSavings := 3600,
        recommendations := [Rec.underutilHeader 2,
          Rec.underutilItem "i-b" "t2.small" "t3.small" 2160,
          Rec.underutilItem "i-a" "t2.micro" "t3.micro" 1440],
        details := [] } ∧
    ([Rec.underutilHeader 2,
      Rec.underutilItem "i-a" "t2.micro" "t3.micro" 1440,
      Rec.underutilItem "i-b" "t2.small" "t3.small" 2160] : List Rec) ≠
    [Rec.underutilHeader 2,
      Rec.underutilItem "i-b" "t2.small" "t3.small" 2160,
      Rec.underutilItem "i-a" "t2.micro" "t3.micro" 1440] := by
  have e1 : ((3 : ℚ) - 1) * 720 = 1440 := by norm_num
  have e2 : (0 : ℚ) < 1440 := by norm_num
  have e3 : ((4 : ℚ) - 1) * 720 = 2160 := by norm_num
  have e4 : (0 : ℚ) < 2160 := by norm_num
  have e5 : (1440 : ℚ) + 2160 = 3600 := by norm_num
  refine ⟨?_, ?_, by decide⟩ <;>
    simp [ec2Execute, checkOrElse, analyzeUnderutilizedInstances,
      analyzeUnderutilizedInstancesCore, underutilStep, underutilRecs,
      mapInsert, mapFind, instanceUpgrades, serviceCalculateInstanceSavings,
      calculateInstanceSavingsTable, analyzeStoppedInstances,
      analyzeUnattachedVolumes, c4Env, samplePricing, Except.map,
      e1, e2, e3, e4, e5]

/-- C4 as amended: against identical collaborator responses, two runs of
the compute analyzer yield the same PotentialSavings, and recommendation
lists that are permutations of one another — they can differ in the
runtime-chosen order of the per-instance upgrade lines, which is the only
run-dependent input of the embedding. -/
theorem c4_amended :
    ∀ (env : EC2Env) (o1 o2 : MapOrder),
    (∀ m, List.Perm (o1 m) m) → (∀ m, List.Perm (o2 m) m) →
    ((ec2Execute env o1).map BladeResult.potentialSavings =
      (ec2Execute env o2).map BladeResult.potentialSavings) ∧
    ∀ r1 r2, ec2Execute env o1 = .ok r1 → ec2Execute env o2 = .ok r2 →
      List.Perm r1.recommendations r2.recommendations := by
  intro env o1 o2 h1 h2
  rcases hv : env.allVolumes with e | vols
  · rw [ec2Execute_error_eq hv, ec2Execute_error_eq hv]
    refine ⟨rfl, ?_⟩
    intro r1 r2 hr1 hr2
    exact Except.noConfusion hr1
  · rw [ec2Execute_ok_eq hv, ec2Execute_ok_eq hv]
    rcases hcore : analyzeUnderutilizedInstancesCore env with e | st
    · have ha1 : analyzeUnderutilizedInstances env o1 = .error e := by
        unfold analyzeUnderutilizedInstances
        rw [hcore]
        rfl
      have ha2 : analyzeUnderutilizedInstances env o2 = .error e := by
        unfold analyzeUnderutilizedInstances
        rw [hcore]
        rfl
      rw [checkOrElse_error ha1, checkOrElse_error ha2]
      refine ⟨rfl, ?_⟩
      intro r1 r2 hr1 hr2
      injection hr1 with h1'
      injection hr2 with h2'
      subst h1'
      subst h2'
      exact List.Perm.refl _
    · have ha1 : analyzeUnderutilizedInstances env o1 =
          .ok (st.1, underutilRecs o1 st.2) := by
        unfold analyzeUnderutilizedInstances
        rw [hcore]
        rfl
      have ha2 : analyzeUnderutilizedInstances env o2 =
          .ok (st.1, underutilRecs o2 st.2) := by
        unfold analyzeUnderutilizedInstances
        rw [hcore]
        rfl
      rw [checkOrElse_ok ha1, checkOrElse_ok ha2]
      refine ⟨rfl, ?_⟩
      intro r1 r2 hr1 hr2
      injection hr1 with h1'
      injection hr2 with h2'
      subst h1'
      subst h2'
      show List.Perm (underutilRecs o1 st.2 ++ _ ++ _)
        (underutilRecs o2 st.2 ++ _ ++ _)
      have hur : List.Perm (underutilRecs o1 st.2) (underutilRecs o2 st.2) := by
        unfold underutilRecs
        by_cases h : st.2.length > 0
        · rw [if_pos h, if_pos h]
          exact List.Perm.cons _ (((h1 st.2).trans (h2 st.2).symm).map _)
        · rw [if_neg h, if_neg h]
      exact (hur.append_right _).append_right _

/-- C4 witness: the amended theorem applied to the two-instance
environment with the identity and the reversing iteration orders; the
savings totals agree. -/
theorem c4_witness :
    (ec2Execute c4Env (fun l => l)).map BladeResult.potentialSavings =
      (ec2Execute c4Env List.reverse).map BladeResult.potentialSavings :=
  (c4_amended c4Env (fun l => l) List.reverse (fun m => List.Perm.refl m)
    (fun m => List.reverse_perm m)).1

/-- C5 counterexample: the pricing service ignores the target type that
the Upgrade Map names.  With a pricing table whose own recommended
upgrade for t2.micro is t3.large, the emitted recommendation names the
Upgrade Map's target t3.micro but carries savings 1440 — the t2.micro to
t3.large delta — while the savings of the named switch t2.micro to
t3.micro is 720. -/
theorem c5_counterexample :
    analyzeUnderutilizedInstances c5Env (fun l => l) = Except.ok (1440,
      [Rec.underutilHeader 1,
       Rec.underutilItem "i-1" "t2.micro" "t3.micro" 1440]) ∧
    specSwitchSavings c5Env.pricing c5Env.region "t2.micro" "t3.micro" =
      some 720 ∧
    (1440 : ℚ) ≠ 720 := by
  have e1 : ((3 : ℚ) - 1) * 720 = 1440 := by norm_num
  have e2 : (0 : ℚ) < 1440 := by norm_num
  have e3 : ((3 : ℚ) - 2) * 720 = 720 := by norm_num
  refine ⟨?_, ?_, by norm_num⟩
  · simp [analyzeUnderutilizedInstances, analyzeUnderutilizedInstancesCore,
      underutilStep, underutilRecs, mapInsert, mapFind, instanceUpgrades,
      serviceCalculateInstanceSavings, calculateInstanceSavingsTable,
      c5Env, c5Pricing, Except.map, e1, e2]
  · simp [specSwitchSavings, mapFind, c5Env, c5Pricing, e3]

/-- C5 as amended: every emitted upgrade recommendation names the Upgrade
Map target of its instance type and carries the strictly positive value
returned by the pricing service — which is
EC2Pricing.CalculateInstanceSavings at 720 hours on the current type
alone, computed from the pricing table's own recommended upgrade and
downgrade entries; the Upgrade Map target passed to the pricing service
is ignored by that computation. -/
theorem c5_amended :
    ∀ (env : EC2Env) (order : MapOrder), (∀ m, List.Perm (order m) m) →
    ∀ r, ec2Execute env order = .ok r →
    ∀ id cur tgt sv, Rec.underutilItem id cur tgt sv ∈ r.recommendations →
      mapFind instanceUpgrades cur = some tgt ∧
      serviceCalculateInstanceSavings env.pricing cur tgt env.region = .ok sv ∧
      calculateInstanceSavingsTable env.pricing env.region cur 720 = .ok sv ∧
      0 < sv := by
  intro env order hord r hok id cur tgt sv hmem
  rcases hv : env.allVolumes with e | vols
  · rw [ec2Execute_error_eq hv] at hok
    exact Except.noConfusion hok
  · rw [ec2Execute_ok_eq hv] at hok
    injection hok with h'
    subst h'
    simp only [List.append_assoc, List.mem_append] at hmem
    rcases hmem with hx | hx | hx
    · obtain ⟨⟨us, urecs⟩, ha, hmem2⟩ := mem_checkOrElse hx
      rcases analyzeUnderutilized_mem hord ha hmem2 with ⟨n, hxh⟩ |
        ⟨rss, hrr, inst, hmemi, tgt2, sv2, hxe, hfind, hcalc, hpos⟩
      · cases hxh
      · injection hxe with ha1 ha2 ha3 ha4
        subst ha2
        subst ha3
        subst ha4
        exact ⟨hfind, hcalc, hcalc, hpos⟩
    · obtain ⟨⟨us, urecs⟩, ha, hmem2⟩ := mem_checkOrElse hx
      rcases analyzeStopped_mem ha hmem2 with ⟨n, hxh⟩ | ⟨t2, hxh⟩ | hxh |
        hxh | hxh | hxh | hxh | ⟨id2, t2, sz2, c2, hxh, _⟩ <;> cases hxh
    · rcases analyzeUnattached_mem hx with ⟨vid, reg, hxh⟩ |
        ⟨t2, vid2, sz2, c2, hxh, _⟩ <;> cases hxh

/-- C5 witness: the amended theorem applied to the c5 environment; the
recommendation names t3.micro while the savings 1440 is the
table-recommendation computation from t2.micro alone. -/
theorem c5_witness :
    mapFind instanceUpgrades "t2.micro" = some "t3.micro" ∧
    serviceCalculateInstanceSavings c5Env.pricing "t2.micro" "t3.micro"
      c5Env.region = .ok 1440 ∧
    calculateInstanceSavingsTable c5Env.pricing c5Env.region "t2.micro" 720 =
      .ok 1440 ∧
    (0 : ℚ) < 1440 := by
  have e1 : ((3 : ℚ) - 1) * 720 = 1440 := by norm_num
  have e2 : (0 : ℚ) < 1440 := by norm_num
  have hok : ec2Execute c5Env (fun l => l) = Except.ok
      { cloudProvider := "aws", category := "compute", resourceType := "EC2",
        potentialSavings := 1440,
        recommendations := [Rec.underutilHeader 1,
          Rec.underutilItem "i-1" "t2.micro" "t3.micro" 1440],
        details := [] } := by
    simp [ec2Execute, checkOrElse, analyzeUnderutilizedInstances,
      analyzeUnderutilizedInstancesCore, underutilStep, underutilRecs,
      mapInsert, mapFind, instanceUpgrades, serviceCalculateInstanceSavings,
      calculateInstanceSavingsTable, analyzeStoppedInstances,
      analyzeUnattachedVolumes, c5Env, c5Pricing, Except.map, e1, e2]
  exact c5_amended c5Env (fun l => l) (fun m => List.Perm.refl m) _ hok
    "i-1" "t2.micro" "t3.micro" 1440 (by simp)

/-- Under the no-upgrade-map-entry hypothesis the RDS upgrade check
contributes nothing. -/
theorem rdsUpgradeCheck_none {p : EC2Pricing} {region : String}
    {inst : DBInstance}
    (hcls : ∀ cls, inst.dbInstanceClass = some cls →
      mapFind rdsInstanceUpgrades cls = none) :
    rdsUpgradeCheck p region inst = (0, none) := by
  rcases rdsUpgradeCheck_cases p region inst with h | ⟨c, t, s, hc, hf, _, _, h⟩
  · exact h
  · rw [hcls c hc] at hf
    exact Option.noConfusion hf

/-- C6: an instance whose type (or DB instance class) has no Upgrade Map
entry receives no upgrade recommendation and no upgrade savings: for the
compute analyzer no per-instance upgrade line with its id is emitted and
the per-instance savings map holds no entry for it; for the database
analyzer its contribution carries zero savings and no upgrade line. -/
theorem c6_no_map_entry_no_upgrade :
    (∀ (env : EC2Env) (order : MapOrder), (∀ m, List.Perm (order m) m) →
      ∀ (rss : List (List EC2Instance)), env.runningInstances = .ok rss →
      (rss.flatten.map EC2Instance.instanceId).Nodup →
      ∀ inst ∈ rss.flatten, mapFind instanceUpgrades inst.instanceType = none →
      (∀ r, ec2Execute env order = .ok r →
        ∀ c t sv, Rec.underutilItem inst.instanceId c t sv ∉ r.recommendations) ∧
      (∀ st, analyzeUnderutilizedInstancesCore env = .ok st →
        mapFind st.2 inst.instanceId = none)) ∧
    (∀ (env : RDSEnv) (snaps : Option (List DBSnapshot)) (inst : DBInstance)
      (contrib : ℚ × List Rec),
      (∀ cls, inst.dbInstanceClass = some cls →
        mapFind rdsInstanceUpgrades cls = none) →
      processInstance env snaps inst = some contrib →
      contrib.1 = 0 ∧ ∀ c t sv, Rec.rdsUpgrade c t sv ∉ contrib.2) := by
  constructor
  · intro env order hord rss hr hnodup inst hinst hmap
    constructor
    · intro r hok c t sv hmem
      rcases hv : env.allVolumes with e | vols
      · rw [ec2Execute_error_eq hv] at hok
        exact Except.noConfusion hok
      · rw [ec2Execute_ok_eq hv] at hok
        injection hok with h'
        subst h'
        simp only [List.append_assoc, List.mem_append] at hmem
        rcases hmem with hx | hx | hx
        · obtain ⟨⟨us, urecs⟩, ha, hmem2⟩ := mem_checkOrElse hx
          rcases analyzeUnderutilized_mem hord ha hmem2 with ⟨n, hxh⟩ |
            ⟨rss2, hrr, inst2, hmemi2, tgt2, sv2, hxe, hfind, hcalc, hpos⟩
          · cases hxh
          · have hrss : rss2 = rss := by
              rw [hr] at hrr
              exact (Except.ok.inj hrr).symm
            subst hrss
            injection hxe with ha1 ha2 ha3 ha4
            have : inst = inst2 :=
              List.inj_on_of_nodup_map hnodup hinst hmemi2 ha1
            rw [← this, hmap] at hfind
            exact Option.noConfusion hfind
        · obtain ⟨⟨us, urecs⟩, ha, hmem2⟩ := mem_checkOrElse hx
          rcases analyzeStopped_mem ha hmem2 with ⟨n, hxh⟩ | ⟨t2, hxh⟩ | hxh |
            hxh | hxh | hxh | hxh | ⟨id2, t2, sz2, c2, hxh, _⟩ <;> cases hxh
        · rcases analyzeUnattached_mem hx with ⟨vid, reg, hxh⟩ |
            ⟨t2, vid2, sz2, c2, hxh, _⟩ <;> cases hxh
    · intro st hst
      unfold analyzeUnderutilizedInstancesCore at hst
      rw [hr] at hst
      injection hst with h'
      subst h'
      rcases hfv : mapFind (rss.flatten.foldl
          (underutilStep env.pricing env.region) (0, [])).2 inst.instanceId
        with _ | v
      · rfl
      · exfalso
        have hvmem := mapFind_mem hfv
        rcases underutil_foldl_mem env.pricing env.region rss.flatten (0, [])
          _ hvmem with hnil | ⟨inst2, hmem2, hid2, hty2, hfind2, _, _⟩
        · cases hnil
        · have heq2 : inst2 = inst :=
            List.inj_on_of_nodup_map hnodup hmem2 hinst hid2
          rw [heq2] at hty2
          rw [← hty2, hmap] at hfind2
          exact Option.noConfusion hfind2
  · intro env snaps inst contrib hcls hpi
    unfold processInstance at hpi
    by_cases haur : isAuroraEngine inst = true
    · rw [if_pos haur] at hpi
      injection hpi with h'
      subst h'
      exact ⟨rfl, by intro c t sv h; cases h⟩
    · rw [if_neg haur] at hpi
      rcases hm : env.metrics inst with e | m
      · simp only [hm] at hpi
        injection hpi with h'
        subst h'
        exact ⟨rfl, by intro c t sv h; cases h⟩
      · simp only [hm] at hpi
        rcases snaps with _ | snl
        · cases hpi
        · injection hpi with h'
          subst h'
          refine ⟨?_, ?_⟩
          · show (rdsInstanceItems env.pricing env.region inst m
                (snapshotCountFor snl inst.dbInstanceIdentifier)).1 = 0
            unfold rdsInstanceItems
            rw [rdsUpgradeCheck_none hcls]
          · intro c t sv hmem
            by_cases hb : (rdsInstanceItems env.pricing env.region inst m
                (snapshotCountFor snl inst.dbInstanceIdentifier)).2 = []
            · rw [if_neg (by simp [hb])] at hmem
              cases hmem
            · rw [if_pos hb] at hmem
              rcases List.mem_cons.1 hmem with hxh | hxh
              · cases hxh
              · rcases rdsInstanceItems_mem env.pricing env.region inst m
                  (snapshotCountFor snl inst.dbInstanceIdentifier) _ hxh with
                  ⟨cc, tt, ss, hxe, hc2, hf2, _, _⟩ | ⟨_, hnotup, _, _, _⟩
                · rw [hcls cc hc2] at hf2
                  exact Option.noConfusion hf2
                · simp [Rec.isRdsUpgrade] at hnotup

/-- C6 witness: the theorem applied to a fleet containing an unmapped
m7.mega instance (compute) and to a DB instance of the unmapped class
db.huge.999 (database): no upgrade line for either, no savings-map entry
for i-x, zero savings for db-x. -/
theorem c6_witness :
    Rec.underutilItem "i-x" "m7.mega" "t3.micro" 1440 ∉
      [Rec.underutilHeader 1,
       Rec.underutilItem "i-1" "t2.micro" "t3.micro" 1440] ∧
    mapFind [("i-1", ("t2.micro", "t3.micro", (1440 : ℚ)))] "i-x" = none ∧
    (0 : ℚ) = 0 ∧
    Rec.rdsUpgrade "db.huge.999" "db.t4g.micro" 7 ∉
      [Rec.rdsInstanceHeader "db-x", Rec.rdsRaiseBackupRetention 0,
       Rec.rdsLargerInstance 0] := by
  have e1 : ((3 : ℚ) - 1) * 720 = 1440 := by norm_num
  have e2 : (0 : ℚ) < 1440 := by norm_num
  have hA := c6_no_map_entry_no_upgrade.1 c6Env (fun l => l)
    (fun m => List.Perm.refl m)
    [[⟨"i-x", "m7.mega"⟩, ⟨"i-1", "t2.micro"⟩]] rfl (by decide)
    ⟨"i-x", "m7.mega"⟩ (by decide) rfl
  have hok : ec2Execute c6Env (fun l => l) = Except.ok
      { cloudProvider := "aws", category := "compute", resourceType := "EC2",
        potentialSavings := 1440,
        recommendations := [Rec.underutilHeader 1,
          Rec.underutilItem "i-1" "t2.micro" "t3.micro" 1440],
        details := [] } := by
    simp [ec2Execute, checkOrElse, analyzeUnderutilizedInstances,
      analyzeUnderutilizedInstancesCore, underutilStep, underutilRecs,
      mapInsert, mapFind, instanceUpgrades, serviceCalculateInstanceSavings,
      calculateInstanceSavingsTable, analyzeStoppedInstances,
      analyzeUnattachedVolumes, c6Env, samplePricing, Except.map, e1, e2]
  have hcore : analyzeUnderutilizedInstancesCore c6Env =
      .ok (1440, [("i-1", ("t2.micro", "t3.micro", (1440 : ℚ)))]) := by
    simp [analyzeUnderutilizedInstancesCore, underutilStep, mapInsert, mapFind,
      instanceUpgrades, serviceCalculateInstanceSavings,
      calculateInstanceSavingsTable, c6Env, samplePricing, e1, e2]
  have f1 : ¬ ((0 : ℚ) < 0 * (4 / 10)) := by norm_num
  have f2 : ¬ ((50 * 1024 * 1024 : ℚ) < 0) := by norm_num
  have f3 : ¬ ((1 : ℚ) < 0) := by norm_num
  have f4 : ¬ ((2 / 100 : ℚ) < 0) := by norm_num
  have f5 : ¬ ((100 * 1024 * 1024 : ℚ) < 0) := by norm_num
  have f6 : ¬ ((1000 : ℚ) < 0) := by norm_num
  have f7 : ¬ ((0 : ℚ) * (7 / 10) < 0) := by norm_num
  have f8 : ¬ ((0 : ℚ) < 0) := by norm_num
  have f9 : (0 : ℚ) < 20 := by norm_num
  have hpi : processInstance c6REnv (some []) c6DbInstance =
      some (0, [Rec.rdsInstanceHeader "db-x", Rec.rdsRaiseBackupRetention 0,
        Rec.rdsLargerInstance 0]) := by
    simp [processInstance, c6REnv, c6DbInstance, isAuroraEngine, mZero,
      rdsInstanceItems, rdsUpgradeCheck, rdsDownsizeCheck, rdsStorageCheck,
      rdsMemoryCheck, rdsDiskQueueCheck, rdsLatencyCheck, rdsNetworkCheck,
      rdsMultiAZCheck, rdsBackupCheck, rdsSnapshotCountCheck, rdsEngineCheck,
      rdsBurstCheck, snapshotCountFor, mapFind, rdsInstanceUpgrades,
      f1, f2, f3, f4, f5, f6, f7, f8, f9]
  have hB := c6_no_map_entry_no_upgrade.2 c6REnv (some []) c6DbInstance
    (0, [Rec.rdsInstanceHeader "db-x", Rec.rdsRaiseBackupRetention 0,
      Rec.rdsLargerInstance 0])
    (fun cls hc => by
      have h := Option.some.inj hc
      subst h
      rfl) hpi
  exact ⟨hA.1 _ hok "m7.mega" "t3.micro" 1440, hA.2 _ hcore, hB.1,
    hB.2 "db.huge.999" "db.t4g.micro" 7⟩

/-- C8: a metric-retrieval failure for one DB instance skips that
instance entirely: its contribution is zero savings and no lines, no
header naming it appears in the result, and Execute does not return an
error (only a DB-instance listing failure can). -/
theorem c8_metric_failure_skips_instance :
    ∀ (env : RDSEnv) (instances : List DBInstance) (inst : DBInstance)
      (e : String),
    env.dbInstances = .ok instances → inst ∈ instances →
    isAuroraEngine inst = false → env.metrics inst = .error e →
    (instances.map DBInstance.dbInstanceIdentifier).Nodup →
    (∀ snaps, processInstance env snaps inst = some (0, [])) ∧
    (∀ msg, rdsExecute env ≠ .err msg) ∧
    (∀ r, rdsExecute env = .ok r →
      Rec.rdsInstanceHeader inst.dbInstanceIdentifier ∉ r.recommendations) := by
  intro env instances inst e hdb hmem haur hm hnodup
  refine ⟨fun snaps => processInstance_metricsError haur hm, ?_, ?_⟩
  · intro msg hmsg
    obtain ⟨e', he'⟩ := (rdsExecute_err_iff env).1 ⟨msg, hmsg⟩
    rw [hdb] at he'
    exact Except.noConfusion he'
  · intro r hok hxmem
    obtain ⟨instances2, contribs, so, hdb2, hcol, hsav, covRecs, hrecs, hcov⟩ :=
      rdsExecute_ok_parts hok
    have hinst2 : instances = instances2 := by
      rw [hdb] at hdb2
      exact Except.ok.inj hdb2
    subst hinst2
    rw [hrecs] at hxmem
    rcases List.mem_append.1 hxmem with hx | hx
    · rw [List.mem_flatten] at hx
      obtain ⟨b, hb, hxb⟩ := hx
      obtain ⟨c, hc, hbc⟩ := List.mem_map.1 hb
      subst hbc
      obtain ⟨inst2, hi2, hpi2⟩ := collectContribs_mem instances contribs hcol c hc
      rcases processInstance_block_mem hpi2 hxb with
        ⟨m, snapList, hso, hm2, haur2, hhead | hitems⟩
      · injection hhead with hid
        have heq : inst2 = inst :=
          List.inj_on_of_nodup_map hnodup hi2 hmem hid.symm
        subst heq
        rw [hm] at hm2
        exact Except.noConfusion hm2
      · rcases rdsInstanceItems_mem env.pricing env.region inst2 m
          (snapshotCountFor snapList inst2.dbInstanceIdentifier) _ hitems with
          ⟨cc, tt, ss, hxe, _⟩ | ⟨_, _, hnothead, _, _⟩
        · cases hxe
        · exact hnothead _ rfl
    · rcases hcov with h | ⟨g, h⟩ <;> subst h
      · cases hx
      · simp only [List.mem_singleton] at hx
        cases hx

/-- C8 witness: the theorem applied to the two-instance environment whose
first instance's metric retrieval fails: db-a contributes nothing, Execute
does not error, and no header for db-a appears in the produced result. -/
theorem c8_witness :
    processInstance c8Env (some [])
      ⟨"db-a", some "mysql", none, 10, none⟩ = some (0, []) ∧
    rdsExecute c8Env ≠ RDSOutcome.err "any" ∧
    Rec.rdsInstanceHeader "db-a" ∉ c8Result.recommendations := by
  have h := c8_metric_failure_skips_instance c8Env
    [⟨"db-a", some "mysql", none, 10, none⟩,
     ⟨"db-b", some "mysql", none, 10, none⟩]
    ⟨"db-a", some "mysql", none, 10, none⟩ "cloudwatch unavailable"
    rfl (List.mem_cons_self _ _) rfl rfl (by decide)
  have f1 : ¬ ((0 : ℚ) < 0 * (4 / 10)) := by norm_num
  have f2 : ¬ ((50 * 1024 * 1024 : ℚ) < 0) := by norm_num
  have f3 : ¬ ((1 : ℚ) < 0) := by norm_num
  have f4 : ¬ ((2 / 100 : ℚ) < 0) := by norm_num
  have f5 : ¬ ((100 * 1024 * 1024 : ℚ) < 0) := by norm_num
  have f6 : ¬ ((1000 : ℚ) < 0) := by norm_num
  have f7 : ¬ ((0 : ℚ) * (7 / 10) < 0) := by norm_num
  have f8 : ¬ ((0 : ℚ) < 0) := by norm_num
  have f9 : (0 : ℚ) < 20 := by norm_num
  have d0 : (2 : ℚ) ≠ 0 := by norm_num
  have d1 : (0 : ℚ) / 2 = 0 := by norm_num
  have d2 : (0 : ℚ) * 100 = 0 := by norm_num
  have d3 : (0 : ℚ) < 80 := by norm_num
  have hok : rdsExecute c8Env = RDSOutcome.ok c8Result := by
    simp [rdsExecute, collectContribs, processInstance, c8Env, c8Result,
      isAuroraEngine, mZero, rdsInstanceItems, rdsUpgradeCheck,
      rdsDownsizeCheck, rdsStorageCheck, rdsMemoryCheck, rdsDiskQueueCheck,
      rdsLatencyCheck, rdsNetworkCheck, rdsMultiAZCheck, rdsBackupCheck,
      rdsSnapshotCountCheck, rdsEngineCheck, rdsBurstCheck, snapshotCountFor,
      goDiv, goMul, goLt, f1, f2, f3, f4, f5, f6, f7, f8, f9, d0, d1, d2, d3]
  exact ⟨h.1 (some []), h.2.1 "any", h.2.2 c8Result hok⟩

end CloudShaver
